import Mathlib

/-!
Verification of the ledger / inventory reconciliation core of the
vignaharta-backend billing service.

The JavaScript source is shallowly embedded below.  JavaScript numbers are
modelled as exact rationals (`Rat`): every arithmetic operation performed by
the reconciliation code (addition, subtraction, division by the fixed
30 kg/bag factor) is modelled exactly.  The MongoDB collections touched by the
code (parties, items, purchases, payments) are modelled as association lists
keyed by `Nat` document ids; `findById` is association-list lookup and
`doc.save()` is in-place replacement of the first matching key.  Thrown /
caught JavaScript exceptions are modelled with `Except`; the per-item
`try{}catch{}` blocks of the purchase routes are modelled by a failure oracle
`failsI : Nat → Bool` saying which item saves throw.

The `Party`, `Item` and `Purchase` Mongoose model files are not part of the
source tree (only their callers are); the definitions below that stand in for
them carry a doc comment starting with `Modelled from the spec:`.
-/

deriving instance DecidableEq for Except

/-- Transaction status enumeration (`pending | completed | cancelled`),
shared by Purchase and Payment schemas. -/
inductive Status where
  | pending
  | completed
  | cancelled
deriving DecidableEq, Repr

/-- Payment direction (`payment-in | payment-out`), from `Payment.js`. -/
inductive PayType where
  | payIn
  | payOut
deriving DecidableEq, Repr

/-- Balance operation of `Party.updateBalance` (`add | subtract | set`). -/
inductive BalOp where
  | add
  | subtract
  | set
deriving DecidableEq, Repr

/-- One purchase line item `{id, quantity (kg), price}` as sent in the
request body and stored on the purchase document. -/
structure LineItem where
  id : Nat
  quantity : Rat
  price : Rat
deriving DecidableEq, Repr

/-- The fields of an inventory `Item` document that the reconciliation code
reads or writes: `openingStock` (bags), the `isUniversal` flag and
`productName` (used by the `findOne({isUniversal:true, productName:'Bardana'})`
queries). -/
structure InvItem where
  openingStock : Rat
  isUniversal : Bool
  productName : String
deriving DecidableEq, Repr

/-- The party balances collection: document id ↦ running balance. -/
abbrev Balances := List (Nat × Rat)

/-- The items collection: document id ↦ item. -/
abbrev Items := List (Nat × InvItem)

/-- Lookup `findById` on the balances collection. -/
def lookupBal : Balances → Nat → Option Rat
  | [], _ => none
  | (k, b) :: rest, pid => if k = pid then some b else lookupBal rest pid

/-- Persistence `party.save()` after mutating `balance`: replace the balance stored under
the first occurrence of the key (ids are unique in the real store). -/
def setBal : Balances → Nat → Rat → Balances
  | [], _, _ => []
  | (k, b) :: rest, pid, v =>
    if k = pid then (k, v) :: rest else (k, b) :: setBal rest pid v

/-- Lookup `Item.findById` on the items collection. -/
def lookupItem : Items → Nat → Option InvItem
  | [], _ => none
  | (k, it) :: rest, iid => if k = iid then some it else lookupItem rest iid

/-- Persistence `item.save()` after mutating `openingStock`: replace the stock stored
under the first occurrence of the key, leaving all other fields intact. -/
def setStock : Items → Nat → Rat → Items
  | [], _, _ => []
  | (k, it) :: rest, iid, v =>
    if k = iid then (k, { it with openingStock := v }) :: rest
    else (k, it) :: setStock rest iid v

/-- Query `Item.findOne({isUniversal: true, productName: 'Bardana'})`: the first
item carrying the universal flag with product name `Bardana`. -/
def findBardana (inv : Items) : Option (Nat × InvItem) :=
  inv.find? fun p => p.2.isUniversal && p.2.productName == "Bardana"

/-- The document id of the universal Bardana item, when present. -/
def findBardanaKey (inv : Items) : Option Nat :=
  (findBardana inv).map (·.1)

/-- Modelled from the spec: `Party.updateBalance(partyId, amount, operation)`
(§4.4; the Party model file is not under `src/`).  `add`/`subtract` apply the
signed delta to the current balance, `set` overwrites; the call fails with
`NotFound` when the party id does not resolve, and that failure propagates to
the caller. -/
def updateBalance (bal : Balances) (pid : Nat) (amount : Rat) (op : BalOp) :
    Except Unit Balances :=
  match lookupBal bal pid with
  | none => .error ()
  | some b =>
    .ok (setBal bal pid
      (match op with
       | .add => b + amount
       | .subtract => b - amount
       | .set => amount))

/-- Modelled from the spec: `Party.findOrCreate` (§4.2; the Party model file
is not under `src/`).  Lookup by identity; if found the party is returned
unchanged, else it is created with `balance = 0`.  The (name, phoneNumber)
identity pair is abstracted to the resolved party document id. -/
def findOrCreate (bal : Balances) (pid : Nat) : Balances :=
  match lookupBal bal pid with
  | some _ => bal
  | none => (pid, 0) :: bal

/-- Modelled from the spec: the Purchase pre-save middleware recomputing
`totalAmount` as the sum of line totals (quantity × price) of the current
line items (§3; the Purchase model file is not under `src/`). -/
def totalOf (L : List LineItem) : Rat :=
  L.foldl (fun a li => a + li.quantity * li.price) 0

/-- Reduction `items.reduce((sum, item) => sum + item.quantity, 0)`: total kilograms
across the line items of a purchase. -/
def sumKg (L : List LineItem) : Rat :=
  L.foldl (fun a li => a + li.quantity) 0

/-- The clamp applied after stock decreases:
`if (item.openingStock < 0) item.openingStock = 0`. -/
def clamp0 (x : Rat) : Rat :=
  if x < 0 then 0 else x

/-- The stock-increase loop of `POST /api/purchases` (party.js 451-465): for
each line item, `findById`; if found, `openingStock += quantity / 30` (no
clamp) and save; a throwing item save (`failsI`) is caught and the loop
continues with the remaining items.  The identical loop reappears as the
"apply new stock levels" phase of `PUT /api/purchases/:id` (party.js
575-586). -/
def createStep (failsI : Nat → Bool) (acc : Items) (li : LineItem) : Items :=
  if failsI li.id then acc
  else
    match lookupItem acc li.id with
    | none => acc
    | some it => setStock acc li.id (it.openingStock + li.quantity / 30)

/-- The full stock-increase loop: fold the per-item body over the line
items in order. -/
def purchaseCreateStocks (failsI : Nat → Bool) (inv : Items)
    (L : List LineItem) : Items :=
  L.foldl (createStep failsI) inv

/-- The stock-restore loop of `DELETE /api/purchases/:id` (party.js 688-706)
and of the "restore original stock levels" phase of `PUT /api/purchases/:id`
(party.js 555-572): for each line item, `openingStock -= quantity / 30`,
clamped at 0; per-item failures are caught and skipped. -/
def restoreStep (failsI : Nat → Bool) (acc : Items) (li : LineItem) : Items :=
  if failsI li.id then acc
  else
    match lookupItem acc li.id with
    | none => acc
    | some it => setStock acc li.id (clamp0 (it.openingStock - li.quantity / 30))

/-- The full stock-restore loop: fold the per-item body over the line
items in order. -/
def purchaseRestoreStocks (failsI : Nat → Bool) (inv : Items)
    (L : List LineItem) : Items :=
  L.foldl (restoreStep failsI) inv

/-- The Bardana update of `POST /api/purchases` (party.js 467-485): if the
universal Bardana item exists, `openingStock += (sum of quantities) / 30`,
without clamping. -/
def purchaseCreateBardana (inv : Items) (L : List LineItem) : Items :=
  match findBardana inv with
  | none => inv
  | some (bk, it) => setStock inv bk (it.openingStock + sumKg L / 30)

/-- The Bardana update of `PUT /api/purchases/:id` (party.js 588-611): add
the bag difference of new versus original total kilograms, clamped at 0. -/
def purchaseUpdateBardana (inv : Items) (oldL newL : List LineItem) : Items :=
  match findBardana inv with
  | none => inv
  | some (bk, it) =>
    setStock inv bk (clamp0 (it.openingStock + (sumKg newL - sumKg oldL) / 30))

/-- The Bardana restore of `DELETE /api/purchases/:id` (party.js 708-728):
subtract the purchase total in bags, clamped at 0. -/
def purchaseDeleteBardana (inv : Items) (L : List LineItem) : Items :=
  match findBardana inv with
  | none => inv
  | some (bk, it) => setStock inv bk (clamp0 (it.openingStock - sumKg L / 30))

/-- The fields of a `Purchase` document touched by the routes in
`party.js`. -/
structure PurchaseDoc where
  supplierName : String
  phoneNumber : String
  items : List LineItem
  totalAmount : Rat
  date : String
  status : Status
  pdfUri : Option String
  partyId : Option Nat
deriving DecidableEq, Repr

/-- The request body of `POST /api/purchases`.  The (supplierName,
phoneNumber) pair is also carried as the party id `pid` that
`Party.findOrCreate` resolves it to. -/
structure PurchaseReq where
  supplierName : String
  phoneNumber : String
  items : List LineItem
  date : String
  status : Status
  pdfUri : Option String
  pid : Nat
deriving DecidableEq, Repr

/-- The request body of `PUT /api/purchases/:id`; absent fields are `none`.
A JavaScript empty string is falsy, so `some ""` leaves a string field
unchanged, mirroring `if (supplierName) purchase.supplierName = ...`. -/
structure PurchaseUpdateReq where
  supplierName : Option String
  phoneNumber : Option String
  items : Option (List LineItem)
  date : Option String
  status : Option Status
  pdfUri : Option String
deriving DecidableEq, Repr

/-- JavaScript truthiness application of an optional string field:
`if (x) doc.f = x` updates only on a non-empty provided string. -/
def applyStr (cur : String) : Option String → String
  | some s => if s = "" then cur else s
  | none => cur

/-- The combined ledger and inventory state the purchase routes mutate. -/
structure St where
  balances : Balances
  invItems : Items
deriving DecidableEq, Repr

/-- Handler of `POST /api/purchases` (party.js 396-509): find-or-create the supplier
party, persist the purchase (its pre-save hook computes `totalAmount`), `add`
the total to the party balance, then run the per-item stock-increase loop and
the Bardana increase.  `ledgerFails` models a store failure thrown by
`Party.updateBalance`: it is not caught locally, so the handler answers 500
with the purchase already saved and no stock adjusted (`Except.error` carries
the state at the failure point). -/
def createPurchase (failsI : Nat → Bool) (ledgerFails : Bool) (st : St)
    (req : PurchaseReq) : Except St (St × PurchaseDoc) :=
  if req.supplierName = "" ∨ req.phoneNumber = "" ∨ req.date = "" then
    .error st
  else if req.items = [] then
    .error st
  else
  let bal1 := findOrCreate st.balances req.pid
  let pur : PurchaseDoc :=
    { supplierName := req.supplierName
      phoneNumber := req.phoneNumber
      items := req.items
      totalAmount := totalOf req.items
      date := req.date
      status := req.status
      pdfUri := req.pdfUri
      partyId := some req.pid }
  if ledgerFails then
    .error { balances := bal1, invItems := st.invItems }
  else
    match updateBalance bal1 req.pid pur.totalAmount .add with
    | .error _ => .error { balances := bal1, invItems := st.invItems }
    | .ok bal2 =>
      let inv1 := purchaseCreateStocks failsI st.invItems req.items
      let inv2 := purchaseCreateBardana inv1 req.items
      .ok ({ balances := bal2, invItems := inv2 }, pur)

/-- Handler of `PUT /api/purchases/:id` (party.js 512-636): apply the provided fields,
persist (recomputing `totalAmount`), `add` the balance difference when the
total changed, and if the items were provided and differ structurally from
the originals, restore the original per-item stock, apply the new per-item
stock, and adjust Bardana by the net kilogram difference.  A throwing
`Party.updateBalance` answers 500 before any stock is touched. -/
def updatePurchase (failsI : Nat → Bool) (st : St) (pur : PurchaseDoc)
    (req : PurchaseUpdateReq) : Except St (St × PurchaseDoc) :=
  let originalTotalAmount := pur.totalAmount
  let originalItems := pur.items
  let newItems := req.items.getD pur.items
  let pur1 : PurchaseDoc :=
    { pur with
      supplierName := applyStr pur.supplierName req.supplierName
      phoneNumber := applyStr pur.phoneNumber req.phoneNumber
      items := newItems
      totalAmount := totalOf newItems
      date := applyStr pur.date req.date
      status := req.status.getD pur.status
      pdfUri := match req.pdfUri with
                | some u => some u
                | none => pur.pdfUri }
  let balStep : Except Unit Balances :=
    match pur1.partyId with
    | some pid =>
      if originalTotalAmount ≠ pur1.totalAmount then
        updateBalance st.balances pid (pur1.totalAmount - originalTotalAmount) .add
      else .ok st.balances
    | none => .ok st.balances
  match balStep with
  | .error _ => .error st
  | .ok bal1 =>
    let inv :=
      if req.items.isSome ∧ originalItems ≠ newItems then
        let i1 := purchaseRestoreStocks failsI st.invItems originalItems
        let i2 := purchaseCreateStocks failsI i1 newItems
        purchaseUpdateBardana i2 originalItems newItems
      else st.invItems
    .ok ({ balances := bal1, invItems := inv }, pur1)

/-- Handler of `DELETE /api/purchases/:id` (party.js 677-748): restore the per-item
stock (clamped), restore Bardana (clamped), then `subtract` the purchase
total from the party balance and remove the record.  A throwing
`Party.updateBalance` answers 500 with the stock already restored but the
record still in place. -/
def deletePurchase (failsI : Nat → Bool) (st : St) (pur : PurchaseDoc) :
    Except St St :=
  let i1 := purchaseRestoreStocks failsI st.invItems pur.items
  let i2 := purchaseDeleteBardana i1 pur.items
  match pur.partyId with
  | none => .ok { balances := st.balances, invItems := i2 }
  | some pid =>
    match updateBalance st.balances pid pur.totalAmount .subtract with
    | .error _ => .error { balances := st.balances, invItems := i2 }
    | .ok bal1 => .ok { balances := bal1, invItems := i2 }

/-- Handler of `PATCH /api/purchases/:id/status` (party.js 639-674): set the status and
save.  The handler performs no ledger or inventory call whatsoever; the
returned boolean records whether a ledger reconciliation was invoked, and is
therefore constantly `false`. -/
def purchaseStatusUpdate (pur : PurchaseDoc) (newStatus : Status) :
    PurchaseDoc × Bool :=
  ({ pur with status := newStatus }, false)

/-- Bytewise (code point) lexicographic strict order on character lists: the
order MongoDB uses to sort ASCII strings such as payment numbers. -/
def lexLt : List Char → List Char → Bool
  | [], [] => false
  | [], _ :: _ => true
  | _ :: _, [] => false
  | a :: as, b :: bs =>
    if a.toNat < b.toNat then true
    else if b.toNat < a.toNat then false
    else lexLt as bs

/-- Character-list prefix test (the `$regex: ^pfx-` filter). -/
def isPfxOf : List Char → List Char → Bool
  | [], _ => true
  | _ :: _, [] => false
  | a :: as, b :: bs => if a.toNat = b.toNat then isPfxOf as bs else false

/-- ASCII decimal digit test. -/
def isDigitChar (c : Char) : Bool :=
  48 ≤ c.toNat && c.toNat ≤ 57

/-- The numeric value of a nonempty all-digit character list (the `(\d+)$`
capture group read by `parseInt`), `none` otherwise. -/
def digitsVal (cs : List Char) : Option Nat :=
  if cs.isEmpty then none
  else
    cs.foldl
      (fun acc c =>
        match acc with
        | none => none
        | some n => if isDigitChar c then some (n * 10 + (c.toNat - 48)) else none)
      (some 0)

/-- The phone sanitization of the Payment pre-save hook (Payment.js 97-102):
`replace(/[^\d+]/g, '')`, then prefix `+91` when no leading `+`. -/
def sanitizePhone (s : String) : String :=
  let cleaned := String.mk (s.toList.filter fun c => isDigitChar c || c = '+')
  if isPfxOf ['+'] cleaned.toList then cleaned else "+91" ++ cleaned

/-- The fields of a `Payment` document (Payment.js schema). -/
structure PaymentDoc where
  paymentNo : String
  type : PayType
  partyName : String
  phoneNumber : String
  amount : Rat
  totalAmount : Rat
  date : String
  status : Status
  description : Option String
  paymentMethod : String
  reference : Option String
  partyId : Option Nat
deriving DecidableEq, Repr

/-- The Payment pre-save middleware (Payment.js 95-110): sanitize the phone
number (skipped on a falsy, i.e. empty, string) and set `totalAmount` to
`amount` when `totalAmount` is falsy (0) and `amount` is truthy (nonzero). -/
def paymentPreSave (p : PaymentDoc) : PaymentDoc :=
  let p1 :=
    if p.phoneNumber = "" then p
    else { p with phoneNumber := sanitizePhone p.phoneNumber }
  if p1.totalAmount = 0 ∧ p1.amount ≠ 0 then
    { p1 with totalAmount := p1.amount }
  else p1

/-- The string prefix for a payment type:
`type === 'payment-in' ? 'PAY-IN' : 'PAY-OUT'`. -/
def payPfx : PayType → String
  | .payIn => "PAY-IN"
  | .payOut => "PAY-OUT"

/-- Query `findOne({paymentNo: {$regex: ^pfx-}}).sort({paymentNo: -1})`: the
lexicographically greatest stored payment number starting with `pfx ++ "-"`
(MongoDB sorts strings bytewise; payment numbers are ASCII). -/
def latestPaymentNo (pnos : List String) (pfx : String) : Option String :=
  (pnos.filter fun s => isPfxOf (pfx ++ "-").toList s.toList).foldl
    (fun acc s =>
      match acc with
      | none => some s
      | some m => if lexLt m.toList s.toList then some s else some m)
    none

/-- The regex match `^pfx-(\d+)$` followed by `parseInt` (Payment.js
145-150): the decimal value of the suffix after `pfx ++ "-"`, or `none` when
the suffix is not a nonempty digit string. -/
def parseSuffix (pfx s : String) : Option Nat :=
  if isPfxOf (pfx ++ "-").toList s.toList then
    digitsVal (s.toList.drop (pfx ++ "-").toList.length)
  else none

/-- Static `Payment.generateNextPaymentNumber(type)` (Payment.js 134-157) over the
collection of stored payment numbers `pnos`: take the lexicographically
latest number with the type's prefix; if none exists, or it does not match
`^pfx-(\d+)$`, return `pfx-1`; otherwise return the parsed suffix plus 1. -/
def generateNextPaymentNumber (pnos : List String) (t : PayType) : String :=
  let pfx := payPfx t
  match latestPaymentNo pnos pfx with
  | none => pfx ++ "-1"
  | some last =>
    match parseSuffix pfx last with
    | none => pfx ++ "-1"
    | some n => pfx ++ "-" ++ toString (n + 1)

/-- The states of the payment-number store after `n` sequential
non-concurrent payment-in creations, each persisting the number the previous
`generateNextPaymentNumber` call returned. -/
def paymentNoSeq : Nat → List String
  | 0 => []
  | n + 1 =>
    let pnos := paymentNoSeq n
    pnos ++ [generateNextPaymentNumber pnos .payIn]

/-- Static `Payment.updatePartyBalance(payment)` (Payment.js 253-270): no-op when
the payment has no `partyId`; otherwise `Party.updateBalance(partyId, amount,
operation)` where the operation is `subtract` for payment-in and `subtract`
for payment-out (the source's literal conditional); a thrown ledger error is
logged and rethrown. -/
def updatePartyBalance (bal : Balances) (pay : PaymentDoc) :
    Except Unit Balances :=
  match pay.partyId with
  | none => .ok bal
  | some pid =>
    let operation := if pay.type = .payIn then BalOp.subtract else BalOp.subtract
    updateBalance bal pid pay.amount operation

/-- The request body of `POST /api/payments`, with the (partyName,
phoneNumber) pair also carried as the party id `pid` that
`Party.findOrCreate` resolves it to. -/
structure PaymentReq where
  type : PayType
  partyName : String
  phoneNumber : String
  amount : Rat
  totalAmount : Option Rat
  date : String
  status : Status
  description : Option String
  paymentMethod : String
  reference : Option String
  pid : Nat
deriving DecidableEq, Repr

/-- Handler of `POST /api/payments` (part_003 138-220): reject missing required fields
(JavaScript falsiness: empty strings, amount 0) and non-positive amounts with
400; generate the payment number from the stored numbers `pnos`; find or
create the party; build the payment with `totalAmount: totalAmount || amount`
(a provided 0 falls back to `amount`); save (running the pre-save hook); then
`Payment.updatePartyBalance`, whose failure propagates as 500. -/
def createPayment (bal : Balances) (pnos : List String) (req : PaymentReq) :
    Except Unit (Balances × PaymentDoc) :=
  if req.partyName = "" ∨ req.phoneNumber = "" ∨ req.amount = 0 ∨ req.date = "" then
    .error ()
  else if req.amount ≤ 0 then
    .error ()
  else
    let paymentNo := generateNextPaymentNumber pnos req.type
    let bal1 := findOrCreate bal req.pid
    let pay0 : PaymentDoc :=
      { paymentNo := paymentNo
        type := req.type
        partyName := req.partyName
        phoneNumber := req.phoneNumber
        amount := req.amount
        totalAmount := match req.totalAmount with
                       | some t => if t = 0 then req.amount else t
                       | none => req.amount
        date := req.date
        status := req.status
        description := req.description
        paymentMethod := req.paymentMethod
        reference := req.reference
        partyId := some req.pid }
    let pay := paymentPreSave pay0
    match updatePartyBalance bal1 pay with
    | .error e => .error e
    | .ok bal2 => .ok (bal2, pay)

/-- The request body of `PUT /api/payments/:id`; absent fields are `none`.
String fields use truthiness (`some ""` leaves the field unchanged);
`amount`, `totalAmount`, `description` and `reference` use an explicit
`!== undefined` check, so any provided value applies. -/
structure PaymentUpdateReq where
  partyName : Option String
  phoneNumber : Option String
  amount : Option Rat
  totalAmount : Option Rat
  date : Option String
  status : Option Status
  description : Option String
  paymentMethod : Option String
  reference : Option String
deriving DecidableEq, Repr

/-- Handler of `PUT /api/payments/:id` (part_003 222-295): apply the provided fields and
save (running the pre-save hook).  If the amount changed and the payment has
a party, first `add` the original amount back to the party (the reverse
operation is `add` for payment-in and `add` for payment-out, the source's
literal conditional), then re-apply via `Payment.updatePartyBalance`; ledger
failures propagate as 500.  `partyId` is not updatable, so the original and
current `partyId` coincide. -/
def updatePayment (bal : Balances) (pay : PaymentDoc)
    (req : PaymentUpdateReq) : Except Unit (Balances × PaymentDoc) :=
  let originalAmount := pay.amount
  let pay1 : PaymentDoc :=
    { pay with
      partyName := applyStr pay.partyName req.partyName
      phoneNumber := applyStr pay.phoneNumber req.phoneNumber
      amount := req.amount.getD pay.amount
      totalAmount := req.totalAmount.getD pay.totalAmount
      date := applyStr pay.date req.date
      status := req.status.getD pay.status
      description := match req.description with
                     | some d => some d
                     | none => pay.description
      paymentMethod := applyStr pay.paymentMethod req.paymentMethod
      reference := match req.reference with
                   | some r => some r
                   | none => pay.reference }
  let pay2 := paymentPreSave pay1
  match pay2.partyId with
  | none => .ok (bal, pay2)
  | some pid =>
    if originalAmount ≠ pay2.amount then
      let reverseOperation := if pay2.type = .payIn then BalOp.add else BalOp.add
      match updateBalance bal pid originalAmount reverseOperation with
      | .error e => .error e
      | .ok bal1 =>
        match updatePartyBalance bal1 pay2 with
        | .error e => .error e
        | .ok bal2 => .ok (bal2, pay2)
    else .ok (bal, pay2)

/-- Handler of `PATCH /api/payments/:id/status` (part_003 298-340): set the status and
save; when the transition is completed→cancelled or cancelled→completed,
re-invoke `Payment.updatePartyBalance` (ledger failures propagate as 500).
The returned boolean records whether that reconciliation call was made. -/
def paymentStatusUpdate (bal : Balances) (pay : PaymentDoc)
    (newStatus : Status) : Except Unit (Balances × PaymentDoc × Bool) :=
  let originalStatus := pay.status
  let pay1 := paymentPreSave { pay with status := newStatus }
  if (originalStatus = .completed ∧ newStatus = .cancelled) ∨
     (originalStatus = .cancelled ∧ newStatus = .completed) then
    match updatePartyBalance bal pay1 with
    | .error e => .error e
    | .ok bal1 => .ok (bal1, pay1, true)
  else
    .ok (bal, pay1, false)

/-- The net number of bags the per-item loops move for a given item id:
the sum of `quantity / 30` over the line items referencing that id. -/
def itemsDelta : List LineItem → Nat → Rat
  | [], _ => 0
  | li :: L, k => (if li.id = k then li.quantity / 30 else 0) + itemsDelta L k

/-- All stocks in the items collection are nonnegative. -/
def AllNonneg (inv : Items) : Prop :=
  ∀ p ∈ inv, 0 ≤ p.2.openingStock

/-- The key, universal flag and product name of every entry, in order —
everything the stock-mutating operations leave untouched. -/
def shape (inv : Items) : List (Nat × Bool × String) :=
  inv.map fun p => (p.1, p.2.isUniversal, p.2.productName)

/-- The document ids of the items collection, in order. -/
def keysOf (inv : Items) : List Nat :=
  inv.map Prod.fst
/-- The no-failure oracle: no item save throws. -/
def noFail : Nat → Bool := fun _ => false
instance (inv : Items) : Decidable (AllNonneg inv) := by
  unfold AllNonneg
  infer_instance
/-- An operation of the purchase lifecycle, as issued by a client: the
request of `POST /api/purchases`, the stored document plus the request of
`PUT /api/purchases/:id`, or the stored document of
`DELETE /api/purchases/:id`. -/
inductive POp where
  | create (req : PurchaseReq)
  | update (pur : PurchaseDoc) (req : PurchaseUpdateReq)
  | delete (pur : PurchaseDoc)
deriving Repr
/-- The line-item quantities a request introduces are nonnegative (the only
unclamped stock writes are additions of request quantities). -/
def POpNonneg : POp → Prop
  | .create req => ∀ li ∈ req.items, 0 ≤ li.quantity
  | .update pur req => ∀ li ∈ req.items.getD pur.items, 0 ≤ li.quantity
  | .delete _ => True
instance (op : POp) : Decidable (POpNonneg op) := by
  unfold POpNonneg
  cases op <;> infer_instance
/-- Run one purchase operation without item-save failures; a handler error
(HTTP 500) leaves the store in the state the handler had reached. -/
def runPOp (st : St) (op : POp) : St :=
  match op with
  | .create req =>
    match createPurchase noFail false st req with
    | .ok (st1, _) => st1
    | .error st1 => st1
  | .update pur req =>
    match updatePurchase noFail st pur req with
    | .ok (st1, _) => st1
    | .error st1 => st1
  | .delete pur =>
    match deletePurchase noFail st pur with
    | .ok st1 => st1
    | .error st1 => st1
/-- Run a sequence of purchase operations in order. -/
def runPOps (st : St) (ops : List POp) : St :=
  ops.foldl runPOp st
/-- The concrete payment used to exhibit the behavior of the status-toggle
ledger policy: a completed payment-in of amount 50 for party 1. -/
def c4Pay : PaymentDoc :=
  ⟨"PAY-IN-1", .payIn, "A", "+911", 50, 50, "1/1/2025", .completed, none,
   "cash", none, some 1⟩
/-- Party 1's balance after toggling `c4Pay` completed→cancelled→completed,
starting from balance 100. -/
def c4Run : Option Rat :=
  match paymentStatusUpdate [(1, 100)] c4Pay .cancelled with
  | .ok (bal1, pay1, _) =>
    match paymentStatusUpdate bal1 pay1 .completed with
    | .ok (bal2, _, _) => lookupBal bal2 1
    | .error _ => none
  | .error _ => none
/-- The concrete payment-creation request used to exhibit the totalAmount
update policy: amount 100, no totalAmount provided. -/
def c7Req : PaymentReq :=
  ⟨.payIn, "A", "+911", 100, none, "1/1/2025", .completed, none, "cash",
   none, 1⟩
/-- The payment persisted by `POST /api/payments` for `c7Req` against a
store holding party 1 with balance 0 and no prior payment numbers. -/
def c7Created : Except Unit (Balances × PaymentDoc) :=
  createPayment [(1, 0)] [] c7Req
/-- The payment after `PUT /api/payments/:id` changes the amount to 200
without providing `totalAmount`. -/
def c7Updated : Option PaymentDoc :=
  match c7Created with
  | .ok (bal1, pay1) =>
    match updatePayment bal1 pay1
        ⟨none, none, some 200, none, none, none, none, none, none⟩ with
    | .ok (_, pay2) => some pay2
    | .error _ => none
  | .error _ => none

theorem lookupBal_setBal (bal : Balances) (pid : Nat) (v : Rat) (q : Nat) :
    lookupBal (setBal bal pid v) q =
      if q = pid then (lookupBal bal pid).map (fun _ => v) else lookupBal bal q := by
  induction bal with
  | nil => simp [setBal, lookupBal]
  | cons hd tl ih =>
    obtain ⟨k, b⟩ := hd
    by_cases hk : k = pid
    · subst hk
      by_cases hq : k = q
      · subst hq; simp [setBal, lookupBal]
      · have hq2 : ¬q = k := fun h => hq h.symm
        simp [setBal, lookupBal, hq, hq2]
    · by_cases hq : k = q
      · subst hq
        simp [setBal, lookupBal, hk, fun h : k = pid => hk h]
      · simp [setBal, lookupBal, hk, hq, ih]

theorem lookupItem_setStock (inv : Items) (k : Nat) (v : Rat) (q : Nat) :
    lookupItem (setStock inv k v) q =
      if q = k then
        (lookupItem inv k).map (fun it => { it with openingStock := v })
      else lookupItem inv q := by
  induction inv with
  | nil => simp [setStock, lookupItem]
  | cons hd tl ih =>
    obtain ⟨j, it⟩ := hd
    by_cases hj : j = k
    · subst hj
      by_cases hq : j = q
      · subst hq; simp [setStock, lookupItem]
      · have hq2 : ¬q = j := fun h => hq h.symm
        simp [setStock, lookupItem, hq, hq2]
    · by_cases hq : j = q
      · subst hq
        simp [setStock, lookupItem, hj, fun h : j = k => hj h]
      · simp [setStock, lookupItem, hj, hq, ih]

theorem findOrCreate_present {bal : Balances} {pid : Nat} {b : Rat}
    (h : lookupBal bal pid = some b) : findOrCreate bal pid = bal := by
  simp [findOrCreate, h]

theorem lookupBal_findOrCreate_self (bal : Balances) (pid : Nat) :
    lookupBal (findOrCreate bal pid) pid = some ((lookupBal bal pid).getD 0) := by
  unfold findOrCreate
  cases h : lookupBal bal pid with
  | none => simp [lookupBal, h]
  | some b => simp [h]

theorem clamp0_nonneg (x : Rat) : 0 ≤ clamp0 x := by
  unfold clamp0
  split <;> [skip; exact le_of_not_lt (by assumption)]
  exact le_refl 0

theorem clamp0_of_nonneg {x : Rat} (h : 0 ≤ x) : clamp0 x = x := by
  simp [clamp0, not_lt.mpr h]

theorem itemsDelta_nonneg {L : List LineItem} (k : Nat)
    (hq : ∀ li ∈ L, 0 ≤ li.quantity) : 0 ≤ itemsDelta L k := by
  induction L with
  | nil => simp [itemsDelta]
  | cons li L ih =>
    have h1 : 0 ≤ li.quantity := hq li (by simp)
    have h2 := ih fun x hx => hq x (by simp [hx])
    have h3 : (0:Rat) ≤ (if li.id = k then li.quantity / 30 else 0) := by
      split
      · positivity
      · exact le_refl 0
    simpa [itemsDelta] using add_nonneg h3 h2

theorem sumKg_shift (L : List LineItem) (a : Rat) :
    L.foldl (fun x li => x + li.quantity) a = a + sumKg L := by
  induction L generalizing a with
  | nil => simp [sumKg]
  | cons li L ih =>
    simp only [sumKg, List.foldl_cons]
    rw [ih, ih (0 + li.quantity)]
    ring

theorem sumKg_cons (li : LineItem) (L : List LineItem) :
    sumKg (li :: L) = li.quantity + sumKg L := by
  show List.foldl (fun x li => x + li.quantity) (0 + li.quantity) L = _
  rw [sumKg_shift]
  ring

theorem sumKg_nonneg {L : List LineItem}
    (hq : ∀ li ∈ L, 0 ≤ li.quantity) : 0 ≤ sumKg L := by
  induction L with
  | nil => simp [sumKg]
  | cons li L ih =>
    rw [sumKg_cons]
    exact add_nonneg (hq li (by simp)) (ih fun x hx => hq x (by simp [hx]))

theorem stockMap_add_zero (o : Option InvItem) :
    o.map (fun it => { it with openingStock := it.openingStock + 0 }) = o := by
  cases o <;> simp


theorem lookupItem_createStep (f : Nat → Bool) (inv : Items) (li : LineItem)
    (k : Nat) :
    lookupItem (createStep f inv li) k =
      (lookupItem inv k).map (fun it =>
        { it with openingStock := it.openingStock +
            (if f li.id = false ∧ li.id = k ∧ (lookupItem inv k).isSome
             then li.quantity / 30 else 0) }) := by
  unfold createStep
  by_cases hf : f li.id
  · simp [hf, stockMap_add_zero]
  · simp only [hf, if_false, Bool.false_eq_true]
    cases hlk : lookupItem inv li.id with
    | none =>
      by_cases hk : li.id = k
      · subst hk
        simp [hlk, stockMap_add_zero]
      · simp [hk, stockMap_add_zero]
    | some it =>
      rw [lookupItem_setStock]
      by_cases hk : k = li.id
      · subst hk
        simp [hlk, hf]
      · have hk2 : ¬li.id = k := fun h => hk h.symm
        simp [hk, hk2, stockMap_add_zero]

theorem lookupItem_createStocks (f : Nat → Bool) (L : List LineItem)
    (inv : Items) (k : Nat) (hk : f k = false) :
    lookupItem (purchaseCreateStocks f inv L) k =
      (lookupItem inv k).map (fun it =>
        { it with openingStock := it.openingStock + itemsDelta L k }) := by
  induction L generalizing inv with
  | nil =>
    show lookupItem inv k = _
    rw [show itemsDelta [] k = 0 from rfl]
    exact (stockMap_add_zero _).symm
  | cons li L ih =>
    show lookupItem (purchaseCreateStocks f (createStep f inv li) L) k = _
    rw [ih (createStep f inv li), lookupItem_createStep]
    cases hlk : lookupItem inv k with
    | none => simp
    | some it =>
      simp only [Option.map_some']
      congr 1
      simp only [itemsDelta]
      by_cases hid : li.id = k
      · subst hid
        simp [hk, hlk, add_assoc]
      · simp [hid]

theorem lookupItem_restoreStep_other (f : Nat → Bool) (inv : Items)
    (li : LineItem) (k : Nat) (hne : li.id ≠ k) :
    lookupItem (restoreStep f inv li) k = lookupItem inv k := by
  unfold restoreStep
  by_cases hf : f li.id
  · simp [hf]
  · simp only [hf, if_false, Bool.false_eq_true]
    cases hlk : lookupItem inv li.id with
    | none => rfl
    | some it =>
      rw [lookupItem_setStock]
      have hkli : ¬k = li.id := fun h => hne h.symm
      simp [hkli]

theorem lookupItem_restoreStocks_none (f : Nat → Bool) (L : List LineItem)
    (inv : Items) (k : Nat) (h : lookupItem inv k = none) :
    lookupItem (purchaseRestoreStocks f inv L) k = none := by
  induction L generalizing inv with
  | nil => exact h
  | cons li L ih =>
    show lookupItem (purchaseRestoreStocks f (restoreStep f inv li) L) k = none
    apply ih
    by_cases hne : li.id = k
    · subst hne
      unfold restoreStep
      by_cases hf : f li.id
      · simpa [hf]
      · simp only [hf, if_false, Bool.false_eq_true]
        rw [h]
        exact h
    · rw [lookupItem_restoreStep_other f inv li k hne]
      exact h

theorem lookupItem_restoreStocks (f : Nat → Bool) (L : List LineItem)
    (inv : Items) (k : Nat) (it : InvItem) (hk : f k = false)
    (hq : ∀ li ∈ L, 0 ≤ li.quantity)
    (hit : lookupItem inv k = some it)
    (hge : itemsDelta L k ≤ it.openingStock) :
    lookupItem (purchaseRestoreStocks f inv L) k =
      some { it with openingStock := it.openingStock - itemsDelta L k } := by
  induction L generalizing inv it with
  | nil =>
    show lookupItem inv k = _
    rw [hit, show itemsDelta [] k = 0 from rfl]
    simp
  | cons li L ih =>
    show lookupItem (purchaseRestoreStocks f (restoreStep f inv li) L) k = _
    have hqL : ∀ x ∈ L, 0 ≤ x.quantity := fun x hx => hq x (by simp [hx])
    have hdL : 0 ≤ itemsDelta L k := itemsDelta_nonneg k hqL
    by_cases hid : li.id = k
    · subst hid
      have hclamp : clamp0 (it.openingStock - li.quantity / 30) =
          it.openingStock - li.quantity / 30 := by
        apply clamp0_of_nonneg
        have h2 : li.quantity / 30 + itemsDelta L li.id ≤ it.openingStock := by
          simpa [itemsDelta] using hge
        linarith
      have hstep : lookupItem (restoreStep f inv li) li.id =
          some { it with openingStock := it.openingStock - li.quantity / 30 } := by
        unfold restoreStep
        simp only [hk, if_false, Bool.false_eq_true]
        rw [hit, lookupItem_setStock]
        simp [hit, hclamp]
      have hge2 : itemsDelta L li.id ≤
          it.openingStock - li.quantity / 30 := by
        have : li.quantity / 30 + itemsDelta L li.id ≤ it.openingStock := by
          simpa [itemsDelta] using hge
        linarith
      rw [ih (restoreStep f inv li) _ hqL hstep hge2]
      have hd : itemsDelta (li :: L) li.id =
          li.quantity / 30 + itemsDelta L li.id := by
        simp [itemsDelta]
      rw [hd]
      congr 2
      ring
    · rw [ih (restoreStep f inv li) it hqL
          (by rw [lookupItem_restoreStep_other f inv li k hid]; exact hit)
          (by simpa [itemsDelta, hid] using hge)]
      congr 2
      simp [itemsDelta, hid]


theorem shape_setStock (inv : Items) (k : Nat) (v : Rat) :
    shape (setStock inv k v) = shape inv := by
  induction inv with
  | nil => rfl
  | cons hd tl ih =>
    obtain ⟨j, it⟩ := hd
    by_cases hj : j = k
    · simp [setStock, shape, hj]
    · simp only [setStock, shape, hj, if_false, List.map_cons]
      simpa [shape] using ih

theorem shape_createStep (f : Nat → Bool) (inv : Items) (li : LineItem) :
    shape (createStep f inv li) = shape inv := by
  unfold createStep
  by_cases hf : f li.id
  · simp [hf]
  · simp only [hf, if_false, Bool.false_eq_true]
    cases lookupItem inv li.id with
    | none => rfl
    | some it => exact shape_setStock inv li.id _

theorem shape_restoreStep (f : Nat → Bool) (inv : Items) (li : LineItem) :
    shape (restoreStep f inv li) = shape inv := by
  unfold restoreStep
  by_cases hf : f li.id
  · simp [hf]
  · simp only [hf, if_false, Bool.false_eq_true]
    cases lookupItem inv li.id with
    | none => rfl
    | some it => exact shape_setStock inv li.id _

theorem shape_createStocks (f : Nat → Bool) (L : List LineItem) (inv : Items) :
    shape (purchaseCreateStocks f inv L) = shape inv := by
  induction L generalizing inv with
  | nil => rfl
  | cons li L ih =>
    show shape (purchaseCreateStocks f (createStep f inv li) L) = shape inv
    rw [ih, shape_createStep]

theorem shape_restoreStocks (f : Nat → Bool) (L : List LineItem) (inv : Items) :
    shape (purchaseRestoreStocks f inv L) = shape inv := by
  induction L generalizing inv with
  | nil => rfl
  | cons li L ih =>
    show shape (purchaseRestoreStocks f (restoreStep f inv li) L) = shape inv
    rw [ih, shape_restoreStep]

theorem keysOf_eq_of_shape {a b : Items} (h : shape a = shape b) :
    keysOf a = keysOf b := by
  have ha : keysOf a = (shape a).map (fun t => t.1) := by
    simp [keysOf, shape, List.map_map, Function.comp]
  have hb : keysOf b = (shape b).map (fun t => t.1) := by
    simp [keysOf, shape, List.map_map, Function.comp]
  rw [ha, hb, h]

theorem findBardana_key_of_shape {a b : Items} (h : shape a = shape b) :
    (findBardana a).map (·.1) = (findBardana b).map (·.1) := by
  induction a generalizing b with
  | nil =>
    cases b with
    | nil => rfl
    | cons hd tl => simp [shape] at h
  | cons hd tl ih =>
    cases b with
    | nil => simp [shape] at h
    | cons hd2 tl2 =>
      obtain ⟨j, it⟩ := hd
      obtain ⟨j2, it2⟩ := hd2
      simp only [shape, List.map_cons, List.cons.injEq] at h
      have hkey : j = j2 := by
        have := h.1
        simpa using congrArg (fun t => t.1) this
      have hflag : it.isUniversal = it2.isUniversal := by
        simpa using congrArg (fun t => t.2.1) h.1
      have hname : it.productName = it2.productName := by
        simpa using congrArg (fun t => t.2.2) h.1
      unfold findBardana
      simp only [List.find?]
      rw [hflag, hname]
      cases hp : (it2.isUniversal && it2.productName == "Bardana") with
      | true => simp [hkey]
      | false =>
        have := ih (b := tl2) (by simpa [shape] using h.2)
        simpa [findBardana] using this

theorem lookupItem_mem {inv : Items} {k : Nat} {it : InvItem}
    (h : lookupItem inv k = some it) : (k, it) ∈ inv := by
  induction inv with
  | nil => simp [lookupItem] at h
  | cons hd tl ih =>
    obtain ⟨j, x⟩ := hd
    by_cases hj : j = k
    · subst hj
      simp [lookupItem] at h
      simp [h]
    · simp [lookupItem, hj] at h
      simp [ih h]

theorem lookupItem_of_mem_nodup {inv : Items} {k : Nat} {it : InvItem}
    (hmem : (k, it) ∈ inv) (hnd : (keysOf inv).Nodup) :
    lookupItem inv k = some it := by
  induction inv with
  | nil => simp at hmem
  | cons hd tl ih =>
    obtain ⟨j, x⟩ := hd
    simp only [keysOf, List.map_cons, List.nodup_cons] at hnd
    rcases List.mem_cons.mp hmem with heq | htl
    · obtain ⟨h1, h2⟩ := Prod.mk.injEq .. ▸ heq
      injection heq with h1 h2
      simp [lookupItem, h1.symm, h2]
    · have hj : j ≠ k := by
        intro hjk
        subst hjk
        exact hnd.1 (by simpa [keysOf] using List.mem_map_of_mem Prod.fst htl)
      simp [lookupItem, hj]
      exact ih htl (by simpa [keysOf] using hnd.2)

theorem findBardana_mem {inv : Items} {p : Nat × InvItem}
    (h : findBardana inv = some p) : p ∈ inv :=
  List.mem_of_find?_eq_some h

/-- Bundled stability: if the bardana item exists in `inv` and `inv2` has the
same shape and duplicate-free keys, then `inv2`'s bardana item lives at the
same key and agrees with `lookupItem`. -/
theorem findBardana_stable {inv inv2 : Items} {bk : Nat} {itb : InvItem}
    (hb : findBardana inv = some (bk, itb))
    (hshape : shape inv2 = shape inv)
    (hnd2 : (keysOf inv2).Nodup) :
    ∃ itb2, findBardana inv2 = some (bk, itb2) ∧
      lookupItem inv2 bk = some itb2 := by
  have hmap := findBardana_key_of_shape hshape
  rw [hb] at hmap
  cases h2 : findBardana inv2 with
  | none => rw [h2] at hmap; simp at hmap
  | some p2 =>
    obtain ⟨a, av⟩ := p2
    rw [h2] at hmap
    have hk2 : a = bk := by simpa using hmap
    subst hk2
    exact ⟨av, rfl, lookupItem_of_mem_nodup (findBardana_mem h2) hnd2⟩

theorem findBardana_none_of_shape {inv inv2 : Items}
    (hb : findBardana inv = none) (hshape : shape inv2 = shape inv) :
    findBardana inv2 = none := by
  have hmap := findBardana_key_of_shape hshape
  rw [hb] at hmap
  cases h2 : findBardana inv2 with
  | none => rfl
  | some p2 => rw [h2] at hmap; simp at hmap

theorem purchaseCreateBardana_none {inv : Items} (L : List LineItem)
    (h : findBardana inv = none) : purchaseCreateBardana inv L = inv := by
  simp [purchaseCreateBardana, h]

theorem purchaseCreateBardana_some {inv : Items} {bk : Nat} {itb : InvItem}
    (L : List LineItem) (h : findBardana inv = some (bk, itb)) :
    purchaseCreateBardana inv L =
      setStock inv bk (itb.openingStock + sumKg L / 30) := by
  simp [purchaseCreateBardana, h]

theorem purchaseUpdateBardana_none {inv : Items} (oldL newL : List LineItem)
    (h : findBardana inv = none) : purchaseUpdateBardana inv oldL newL = inv := by
  simp [purchaseUpdateBardana, h]

theorem purchaseUpdateBardana_some {inv : Items} {bk : Nat} {itb : InvItem}
    (oldL newL : List LineItem) (h : findBardana inv = some (bk, itb)) :
    purchaseUpdateBardana inv oldL newL =
      setStock inv bk (clamp0 (itb.openingStock + (sumKg newL - sumKg oldL) / 30)) := by
  simp [purchaseUpdateBardana, h]

theorem purchaseDeleteBardana_none {inv : Items} (L : List LineItem)
    (h : findBardana inv = none) : purchaseDeleteBardana inv L = inv := by
  simp [purchaseDeleteBardana, h]

theorem purchaseDeleteBardana_some {inv : Items} {bk : Nat} {itb : InvItem}
    (L : List LineItem) (h : findBardana inv = some (bk, itb)) :
    purchaseDeleteBardana inv L =
      setStock inv bk (clamp0 (itb.openingStock - sumKg L / 30)) := by
  simp [purchaseDeleteBardana, h]


theorem lookupItem_createStocks_simple (L : List LineItem) (inv : Items)
    (k : Nat) :
    lookupItem (purchaseCreateStocks noFail inv L) k =
      (lookupItem inv k).map (fun it =>
        { it with openingStock := it.openingStock + itemsDelta L k }) :=
  lookupItem_createStocks noFail L inv k rfl

theorem inv_roundtrip_short (inv : Items) (L1 : List LineItem)
    (hstock : AllNonneg inv) (hnd : (keysOf inv).Nodup)
    (hq1 : ∀ li ∈ L1, 0 ≤ li.quantity) (k : Nat) :
    lookupItem
      (purchaseDeleteBardana
        (purchaseRestoreStocks noFail
          (purchaseCreateBardana (purchaseCreateStocks noFail inv L1) L1) L1)
        L1) k = lookupItem inv k := by
  have hS1 : 0 ≤ sumKg L1 := sumKg_nonneg hq1
  have hshapeA : shape (purchaseCreateStocks noFail inv L1) = shape inv :=
    shape_createStocks noFail L1 inv
  have hndA : (keysOf (purchaseCreateStocks noFail inv L1)).Nodup := by
    rw [keysOf_eq_of_shape hshapeA]; exact hnd
  cases hbard : findBardana inv with
  | none =>
    have hbA := findBardana_none_of_shape hbard hshapeA
    rw [purchaseCreateBardana_none L1 hbA]
    have hshapeR :
        shape (purchaseRestoreStocks noFail (purchaseCreateStocks noFail inv L1) L1) =
          shape inv :=
      (shape_restoreStocks noFail L1 _).trans hshapeA
    rw [purchaseDeleteBardana_none L1 (findBardana_none_of_shape hbard hshapeR)]
    cases hk : lookupItem inv k with
    | none =>
      have hkA : lookupItem (purchaseCreateStocks noFail inv L1) k = none := by
        rw [lookupItem_createStocks_simple, hk]; rfl
      exact lookupItem_restoreStocks_none noFail L1 _ k hkA
    | some it =>
      have hk0 : 0 ≤ it.openingStock := hstock _ (lookupItem_mem hk)
      have hd1 : 0 ≤ itemsDelta L1 k := itemsDelta_nonneg k hq1
      have hkA : lookupItem (purchaseCreateStocks noFail inv L1) k =
          some { it with openingStock := it.openingStock + itemsDelta L1 k } := by
        rw [lookupItem_createStocks_simple, hk]; rfl
      rw [lookupItem_restoreStocks noFail L1 _ k _ rfl hq1 hkA (by
        simp only []
        linarith)]
      rw [show it.openingStock + itemsDelta L1 k - itemsDelta L1 k =
        it.openingStock from by ring]
  | some bp =>
    obtain ⟨bk, itb⟩ := bp
    have hitb : lookupItem inv bk = some itb :=
      lookupItem_of_mem_nodup (findBardana_mem hbard) hnd
    have hitb0 : 0 ≤ itb.openingStock := hstock _ (lookupItem_mem hitb)
    obtain ⟨itbA, hbA, hlA⟩ := findBardana_stable hbard hshapeA hndA
    have hitbA : itbA =
        { itb with openingStock := itb.openingStock + itemsDelta L1 bk } := by
      have := lookupItem_createStocks_simple L1 inv bk
      rw [hlA, hitb] at this
      simpa using this
    rw [purchaseCreateBardana_some L1 hbA]
    -- the state after the create phase
    have hcrea : ∀ q, lookupItem
        (setStock (purchaseCreateStocks noFail inv L1) bk
          (itbA.openingStock + sumKg L1 / 30)) q =
        (lookupItem inv q).map (fun it =>
          { it with openingStock := it.openingStock + itemsDelta L1 q +
              (if q = bk then sumKg L1 / 30 else 0) }) := by
      intro q
      rw [lookupItem_setStock, lookupItem_createStocks_simple]
      by_cases hq : q = bk
      · subst hq
        rw [hlA, hitb, hitbA]
        simp
      · rw [if_neg hq, lookupItem_createStocks_simple]
        cases lookupItem inv q with
        | none => rfl
        | some x => simp [hq]
    have hshapeB : shape (setStock (purchaseCreateStocks noFail inv L1) bk
        (itbA.openingStock + sumKg L1 / 30)) = shape inv :=
      (shape_setStock _ bk _).trans hshapeA
    -- the state after the restore loop of the delete phase
    have hrest : ∀ q, lookupItem (purchaseRestoreStocks noFail
        (setStock (purchaseCreateStocks noFail inv L1) bk
          (itbA.openingStock + sumKg L1 / 30)) L1) q =
        (lookupItem inv q).map (fun it =>
          { it with openingStock := it.openingStock +
              (if q = bk then sumKg L1 / 30 else 0) }) := by
      intro q
      cases hq : lookupItem inv q with
      | none =>
        have : lookupItem (setStock (purchaseCreateStocks noFail inv L1) bk
            (itbA.openingStock + sumKg L1 / 30)) q = none := by
          rw [hcrea q, hq]; rfl
        rw [lookupItem_restoreStocks_none noFail L1 _ q this]
        rfl
      | some it =>
        have hq0 : 0 ≤ it.openingStock := hstock _ (lookupItem_mem hq)
        have hdq : 0 ≤ itemsDelta L1 q := itemsDelta_nonneg q hq1
        have hite : (0:Rat) ≤ (if q = bk then sumKg L1 / 30 else 0) := by
          split
          · positivity
          · exact le_refl 0
        have hB : lookupItem (setStock (purchaseCreateStocks noFail inv L1) bk
            (itbA.openingStock + sumKg L1 / 30)) q =
            some { it with openingStock := it.openingStock + itemsDelta L1 q +
              (if q = bk then sumKg L1 / 30 else 0) } := by
          rw [hcrea q, hq]; rfl
        rw [lookupItem_restoreStocks noFail L1 _ q _ rfl hq1 hB (by
          simp only []
          linarith)]
        simp only [Option.map_some']
        congr 2
        ring
    have hshapeR : shape (purchaseRestoreStocks noFail
        (setStock (purchaseCreateStocks noFail inv L1) bk
          (itbA.openingStock + sumKg L1 / 30)) L1) = shape inv :=
      (shape_restoreStocks noFail L1 _).trans hshapeB
    have hndR : (keysOf (purchaseRestoreStocks noFail
        (setStock (purchaseCreateStocks noFail inv L1) bk
          (itbA.openingStock + sumKg L1 / 30)) L1)).Nodup := by
      rw [keysOf_eq_of_shape hshapeR]; exact hnd
    obtain ⟨itbR, hbR, hlR⟩ := findBardana_stable hbard hshapeR hndR
    have hitbR : itbR =
        { itb with openingStock := itb.openingStock + sumKg L1 / 30 } := by
      have := hrest bk
      rw [hlR, hitb] at this
      simpa using this
    rw [purchaseDeleteBardana_some L1 hbR, lookupItem_setStock]
    by_cases hq : k = bk
    · subst hq
      rw [hlR, hitb, hitbR]
      simp only [Option.map_some']
      rw [show itb.openingStock + sumKg L1 / 30 - sumKg L1 / 30 =
        itb.openingStock from by ring, clamp0_of_nonneg hitb0]
      rfl
    · rw [if_neg hq, hrest k, if_neg hq]
      cases hk : lookupItem inv k with
      | none => rfl
      | some it => simp

/-- A state `cur` whose stocks differ from `inv` by the additive per-key
offset `g` stays in that form after a stock-increase loop. -/
theorem profile_createStocks (inv cur : Items) (L : List LineItem)
    (g : Nat → Rat)
    (h : ∀ q, lookupItem cur q = (lookupItem inv q).map (fun it =>
      { it with openingStock := it.openingStock + g q })) (q : Nat) :
    lookupItem (purchaseCreateStocks noFail cur L) q =
      (lookupItem inv q).map (fun it =>
        { it with openingStock := it.openingStock + (g q + itemsDelta L q) }) := by
  rw [lookupItem_createStocks_simple, h q]
  cases lookupItem inv q with
  | none => rfl
  | some it => simp [add_assoc]

/-- A state in profile form stays in profile form after a clamped
stock-restore loop, provided the offset dominates the removed amount. -/
theorem profile_restoreStocks (inv cur : Items) (L : List LineItem)
    (g : Nat → Rat) (hstock : AllNonneg inv)
    (hq : ∀ li ∈ L, 0 ≤ li.quantity)
    (h : ∀ q, lookupItem cur q = (lookupItem inv q).map (fun it =>
      { it with openingStock := it.openingStock + g q }))
    (hg : ∀ q, itemsDelta L q ≤ g q) (q : Nat) :
    lookupItem (purchaseRestoreStocks noFail cur L) q =
      (lookupItem inv q).map (fun it =>
        { it with openingStock := it.openingStock + (g q - itemsDelta L q) }) := by
  cases hk : lookupItem inv q with
  | none =>
    have hcur : lookupItem cur q = none := by rw [h q, hk]; rfl
    rw [lookupItem_restoreStocks_none noFail L cur q hcur]
    rfl
  | some it =>
    have hk0 : 0 ≤ it.openingStock := hstock _ (lookupItem_mem hk)
    have hcur : lookupItem cur q =
        some { it with openingStock := it.openingStock + g q } := by
      rw [h q, hk]; rfl
    rw [lookupItem_restoreStocks noFail L cur q _ rfl hq hcur (by
      simp only []
      have := hg q
      linarith)]
    simp only [Option.map_some']
    congr 2
    ring

/-- The bardana-less profile step: when no universal Bardana item exists, the
three Bardana updates are all the identity on any same-shape state. -/
theorem profile_noBardana {inv cur : Items}
    (hb : findBardana inv = none) (hshape : shape cur = shape inv) :
    purchaseCreateBardana cur = (fun _ => cur) ∧
      purchaseUpdateBardana cur = (fun _ _ => cur) ∧
      purchaseDeleteBardana cur = (fun _ => cur) := by
  have hbc := findBardana_none_of_shape hb hshape
  refine ⟨?_, ?_, ?_⟩ <;> funext <;>
    simp [purchaseCreateBardana, purchaseUpdateBardana,
      purchaseDeleteBardana, hbc]

/-- Profile step for the unclamped Bardana increase of the create path. -/
theorem profile_createBardana {inv cur : Items} {bk : Nat} {itb : InvItem}
    (L : List LineItem) (g : Nat → Rat)
    (hb : findBardana inv = some (bk, itb))
    (hshape : shape cur = shape inv) (hnd : (keysOf inv).Nodup)
    (h : ∀ q, lookupItem cur q = (lookupItem inv q).map (fun it =>
      { it with openingStock := it.openingStock + g q })) (q : Nat) :
    lookupItem (purchaseCreateBardana cur L) q =
      (lookupItem inv q).map (fun it =>
        { it with openingStock := it.openingStock +
            (g q + if q = bk then sumKg L / 30 else 0) }) := by
  have hndc : (keysOf cur).Nodup := by
    rw [keysOf_eq_of_shape hshape]; exact hnd
  have hitb : lookupItem inv bk = some itb :=
    lookupItem_of_mem_nodup (findBardana_mem hb) hnd
  obtain ⟨itbc, hbc, hlc⟩ := findBardana_stable hb hshape hndc
  have hitbc : itbc =
      { itb with openingStock := itb.openingStock + g bk } := by
    have := h bk
    rw [hlc, hitb] at this
    simpa using this
  rw [purchaseCreateBardana_some L hbc, lookupItem_setStock]
  by_cases hq : q = bk
  · subst hq
    rw [hlc, hitb, hitbc]
    simp [add_assoc]
  · rw [if_neg hq, h q]
    cases lookupItem inv q with
    | none => rfl
    | some it => simp [hq]

/-- Profile step for the clamped Bardana adjustment of the update path. -/
theorem profile_updateBardana {inv cur : Items} {bk : Nat} {itb : InvItem}
    (oldL newL : List LineItem) (g : Nat → Rat)
    (hb : findBardana inv = some (bk, itb))
    (hshape : shape cur = shape inv) (hnd : (keysOf inv).Nodup)
    (h : ∀ q, lookupItem cur q = (lookupItem inv q).map (fun it =>
      { it with openingStock := it.openingStock + g q }))
    (hpos : 0 ≤ itb.openingStock + g bk + (sumKg newL - sumKg oldL) / 30)
    (q : Nat) :
    lookupItem (purchaseUpdateBardana cur oldL newL) q =
      (lookupItem inv q).map (fun it =>
        { it with openingStock := it.openingStock +
            (g q + if q = bk then (sumKg newL - sumKg oldL) / 30 else 0) }) := by
  have hndc : (keysOf cur).Nodup := by
    rw [keysOf_eq_of_shape hshape]; exact hnd
  have hitb : lookupItem inv bk = some itb :=
    lookupItem_of_mem_nodup (findBardana_mem hb) hnd
  obtain ⟨itbc, hbc, hlc⟩ := findBardana_stable hb hshape hndc
  have hitbc : itbc =
      { itb with openingStock := itb.openingStock + g bk } := by
    have := h bk
    rw [hlc, hitb] at this
    simpa using this
  rw [purchaseUpdateBardana_some oldL newL hbc, lookupItem_setStock]
  by_cases hq : q = bk
  · subst hq
    rw [hlc, hitb, hitbc]
    simp only [Option.map_some']
    rw [show ({ itb with openingStock := itb.openingStock + g q }
        : InvItem).openingStock + (sumKg newL - sumKg oldL) / 30 =
      itb.openingStock + g q + (sumKg newL - sumKg oldL) / 30 from rfl]
    rw [clamp0_of_nonneg (by linarith)]
    simp [add_assoc]
  · rw [if_neg hq, h q]
    cases lookupItem inv q with
    | none => rfl
    | some it => simp [hq]

/-- Profile step for the clamped Bardana restore of the delete path. -/
theorem profile_deleteBardana {inv cur : Items} {bk : Nat} {itb : InvItem}
    (L : List LineItem) (g : Nat → Rat)
    (hb : findBardana inv = some (bk, itb))
    (hshape : shape cur = shape inv) (hnd : (keysOf inv).Nodup)
    (h : ∀ q, lookupItem cur q = (lookupItem inv q).map (fun it =>
      { it with openingStock := it.openingStock + g q }))
    (hpos : 0 ≤ itb.openingStock + g bk - sumKg L / 30)
    (q : Nat) :
    lookupItem (purchaseDeleteBardana cur L) q =
      (lookupItem inv q).map (fun it =>
        { it with openingStock := it.openingStock +
            (g q - if q = bk then sumKg L / 30 else 0) }) := by
  have hndc : (keysOf cur).Nodup := by
    rw [keysOf_eq_of_shape hshape]; exact hnd
  have hitb : lookupItem inv bk = some itb :=
    lookupItem_of_mem_nodup (findBardana_mem hb) hnd
  obtain ⟨itbc, hbc, hlc⟩ := findBardana_stable hb hshape hndc
  have hitbc : itbc =
      { itb with openingStock := itb.openingStock + g bk } := by
    have := h bk
    rw [hlc, hitb] at this
    simpa using this
  rw [purchaseDeleteBardana_some L hbc, lookupItem_setStock]
  by_cases hq : q = bk
  · subst hq
    rw [hlc, hitb, hitbc]
    simp only [Option.map_some']
    rw [show ({ itb with openingStock := itb.openingStock + g q }
        : InvItem).openingStock - sumKg L / 30 =
      itb.openingStock + g q - sumKg L / 30 from rfl]
    rw [clamp0_of_nonneg (by linarith)]
    simp only [eq_self_iff_true, if_true, ite_true]
    congr 2
    ring
  · rw [if_neg hq, h q]
    cases lookupItem inv q with
    | none => rfl
    | some it => simp [hq]

/-- A state in profile form with a vanishing offset has exactly the stocks of
the base state. -/
theorem profile_id (inv cur : Items) (g : Nat → Rat)
    (h : ∀ q, lookupItem cur q = (lookupItem inv q).map (fun it =>
      { it with openingStock := it.openingStock + g q }))
    (hg : ∀ q, g q = 0) (k : Nat) :
    lookupItem cur k = lookupItem inv k := by
  rw [h k]
  cases lookupItem inv k with
  | none => rfl
  | some it => simp [hg k]

theorem shape_createBardana (inv : Items) (L : List LineItem) :
    shape (purchaseCreateBardana inv L) = shape inv := by
  cases hfb : findBardana inv with
  | none => rw [purchaseCreateBardana_none L hfb]
  | some p =>
    obtain ⟨a, av⟩ := p
    rw [purchaseCreateBardana_some L hfb]
    exact shape_setStock inv a _

theorem shape_updateBardana (inv : Items) (oldL newL : List LineItem) :
    shape (purchaseUpdateBardana inv oldL newL) = shape inv := by
  cases hfb : findBardana inv with
  | none => rw [purchaseUpdateBardana_none oldL newL hfb]
  | some p =>
    obtain ⟨a, av⟩ := p
    rw [purchaseUpdateBardana_some oldL newL hfb]
    exact shape_setStock inv a _

theorem shape_deleteBardana (inv : Items) (L : List LineItem) :
    shape (purchaseDeleteBardana inv L) = shape inv := by
  cases hfb : findBardana inv with
  | none => rw [purchaseDeleteBardana_none L hfb]
  | some p =>
    obtain ⟨a, av⟩ := p
    rw [purchaseDeleteBardana_some L hfb]
    exact shape_setStock inv a _

theorem inv_roundtrip_full (inv : Items) (L1 L2 : List LineItem)
    (hstock : AllNonneg inv) (hnd : (keysOf inv).Nodup)
    (hq1 : ∀ li ∈ L1, 0 ≤ li.quantity) (hq2 : ∀ li ∈ L2, 0 ≤ li.quantity)
    (k : Nat) :
    lookupItem
      (purchaseDeleteBardana
        (purchaseRestoreStocks noFail
          (purchaseUpdateBardana
            (purchaseCreateStocks noFail
              (purchaseRestoreStocks noFail
                (purchaseCreateBardana (purchaseCreateStocks noFail inv L1) L1)
                L1)
              L2)
            L1 L2)
          L2)
        L2) k = lookupItem inv k := by
  have hS1 : 0 ≤ sumKg L1 := sumKg_nonneg hq1
  have hS2 : 0 ≤ sumKg L2 := sumKg_nonneg hq2
  have h0 : ∀ q, lookupItem inv q = (lookupItem inv q).map
      (fun it => { it with openingStock :=
        it.openingStock + (fun _ : Nat => (0:Rat)) q }) :=
    fun q => (stockMap_add_zero _).symm
  have h1 := profile_createStocks inv inv L1 (fun _ => 0) h0
  have sh1 : shape (purchaseCreateStocks noFail inv L1) = shape inv :=
    shape_createStocks noFail L1 inv
  cases hbard : findBardana inv with
  | none =>
    rw [congrFun (profile_noBardana hbard sh1).1 L1]
    have h3 := profile_restoreStocks inv _ L1
      (fun q => 0 + itemsDelta L1 q) hstock hq1 h1
      (fun q => by simp)
    have h4 := profile_createStocks inv _ L2
      (fun q => (0 + itemsDelta L1 q) - itemsDelta L1 q) h3
    have sh4n : shape (purchaseCreateStocks noFail
        (purchaseRestoreStocks noFail
          (purchaseCreateStocks noFail inv L1) L1) L2) = shape inv :=
      (shape_createStocks noFail L2 _).trans
        ((shape_restoreStocks noFail L1 _).trans sh1)
    rw [congrFun (congrFun (profile_noBardana hbard sh4n).2.1 L1) L2]
    have h6 := profile_restoreStocks inv _ L2
      (fun q => ((0 + itemsDelta L1 q) - itemsDelta L1 q) + itemsDelta L2 q)
      hstock hq2 h4
      (fun q => by
        have h1d := itemsDelta_nonneg q hq1
        have h2d := itemsDelta_nonneg q hq2
        simp only []
        linarith)
    have sh6n : shape (purchaseRestoreStocks noFail
        (purchaseCreateStocks noFail
          (purchaseRestoreStocks noFail
            (purchaseCreateStocks noFail inv L1) L1) L2) L2) = shape inv :=
      (shape_restoreStocks noFail L2 _).trans sh4n
    rw [congrFun (profile_noBardana hbard sh6n).2.2 L2]
    exact profile_id inv _ _ h6 (fun q => by simp only []; ring) k
  | some bp =>
    obtain ⟨bk, itb⟩ := bp
    have hitb : lookupItem inv bk = some itb :=
      lookupItem_of_mem_nodup (findBardana_mem hbard) hnd
    have hitb0 : 0 ≤ itb.openingStock := hstock _ (lookupItem_mem hitb)
    have h2 := profile_createBardana L1
      (fun q => 0 + itemsDelta L1 q) hbard sh1 hnd h1
    have sh2 : shape (purchaseCreateBardana
        (purchaseCreateStocks noFail inv L1) L1) = shape inv :=
      (shape_createBardana _ L1).trans sh1
    have h3 := profile_restoreStocks inv _ L1
      (fun q => (0 + itemsDelta L1 q) + if q = bk then sumKg L1 / 30 else 0)
      hstock hq1 h2
      (fun q => by
        have h1d := itemsDelta_nonneg q hq1
        have hx : (0:Rat) ≤ (if q = bk then sumKg L1 / 30 else 0) := by
          split
          · positivity
          · exact le_refl 0
        simp only []
        linarith)
    have h4 := profile_createStocks inv _ L2
      (fun q => ((0 + itemsDelta L1 q) +
        (if q = bk then sumKg L1 / 30 else 0)) - itemsDelta L1 q) h3
    have sh4 : shape (purchaseCreateStocks noFail
        (purchaseRestoreStocks noFail
          (purchaseCreateBardana (purchaseCreateStocks noFail inv L1) L1) L1)
        L2) = shape inv :=
      (shape_createStocks noFail L2 _).trans
        ((shape_restoreStocks noFail L1 _).trans sh2)
    have h5 := profile_updateBardana L1 L2
      (fun q => (((0 + itemsDelta L1 q) +
        (if q = bk then sumKg L1 / 30 else 0)) - itemsDelta L1 q)
        + itemsDelta L2 q)
      hbard sh4 hnd h4
      (by
        have h2b := itemsDelta_nonneg bk hq2
        beta_reduce
        simp only [eq_self_iff_true, if_true]
        linarith)
    have sh5 : shape (purchaseUpdateBardana
        (purchaseCreateStocks noFail
          (purchaseRestoreStocks noFail
            (purchaseCreateBardana (purchaseCreateStocks noFail inv L1) L1)
            L1) L2) L1 L2) = shape inv :=
      (shape_updateBardana _ L1 L2).trans sh4
    have h6 := profile_restoreStocks inv _ L2
      (fun q => ((((0 + itemsDelta L1 q) +
        (if q = bk then sumKg L1 / 30 else 0)) - itemsDelta L1 q)
        + itemsDelta L2 q) +
        if q = bk then (sumKg L2 - sumKg L1) / 30 else 0)
      hstock hq2 h5
      (fun q => by
        have h1d := itemsDelta_nonneg q hq1
        have h2d := itemsDelta_nonneg q hq2
        by_cases hqb : q = bk
        · subst hqb
          beta_reduce
          simp only [eq_self_iff_true, if_true]
          linarith
        · beta_reduce
          simp only [if_neg hqb]
          linarith)
    have sh6 : shape (purchaseRestoreStocks noFail
        (purchaseUpdateBardana
          (purchaseCreateStocks noFail
            (purchaseRestoreStocks noFail
              (purchaseCreateBardana (purchaseCreateStocks noFail inv L1) L1)
              L1) L2) L1 L2) L2) = shape inv :=
      (shape_restoreStocks noFail L2 _).trans sh5
    have h7 := profile_deleteBardana L2
      (fun q => (((((0 + itemsDelta L1 q) +
        (if q = bk then sumKg L1 / 30 else 0)) - itemsDelta L1 q)
        + itemsDelta L2 q) +
        (if q = bk then (sumKg L2 - sumKg L1) / 30 else 0))
        - itemsDelta L2 q)
      hbard sh6 hnd h6
      (by
        beta_reduce
        simp only [eq_self_iff_true, if_true]
        linarith)
    exact profile_id inv _ _ h7
      (fun q => by
        by_cases hqb : q = bk
        · subst hqb
          beta_reduce
          simp only [eq_self_iff_true, if_true]
          ring
        · beta_reduce
          simp only [if_neg hqb]
          ring) k

theorem createPurchase_ok (f : Nat → Bool) (st : St) (req : PurchaseReq)
    (b : Rat) (hb : lookupBal st.balances req.pid = some b)
    (hsn : req.supplierName ≠ "") (hpn : req.phoneNumber ≠ "")
    (hdt : req.date ≠ "") (hne : req.items ≠ []) :
    ∃ st1 pur1, createPurchase f false st req = .ok (st1, pur1) ∧
      pur1.partyId = some req.pid ∧ pur1.items = req.items ∧
      pur1.totalAmount = totalOf req.items ∧
      (∀ q, lookupBal st1.balances q = if q = req.pid
        then some (b + totalOf req.items) else lookupBal st.balances q) ∧
      st1.invItems = purchaseCreateBardana
        (purchaseCreateStocks f st.invItems req.items) req.items := by
  refine ⟨⟨setBal st.balances req.pid (b + totalOf req.items),
          purchaseCreateBardana
            (purchaseCreateStocks f st.invItems req.items) req.items⟩,
          ⟨req.supplierName, req.phoneNumber, req.items, totalOf req.items,
           req.date, req.status, req.pdfUri, some req.pid⟩,
          ?_, rfl, rfl, rfl, ?_, rfl⟩
  · have hval : ¬(req.supplierName = "" ∨ req.phoneNumber = "" ∨
        req.date = "") := by
      rintro (h | h | h)
      · exact hsn h
      · exact hpn h
      · exact hdt h
    simp only [createPurchase, if_neg hval, if_neg hne,
      findOrCreate_present hb, updateBalance, hb, Bool.false_eq_true,
      if_false]
  · intro q
    show lookupBal (setBal st.balances req.pid (b + totalOf req.items)) q = _
    rw [lookupBal_setBal]
    by_cases hq : q = req.pid
    · subst hq
      rw [if_pos rfl, if_pos rfl, hb]
      rfl
    · rw [if_neg hq, if_neg hq]

theorem updatePurchase_ok (st : St) (pur : PurchaseDoc)
    (req : PurchaseUpdateReq) (pid : Nat) (c : Rat)
    (hpid : pur.partyId = some pid)
    (hbal : lookupBal st.balances pid = some c) :
    ∃ st2 pur2, updatePurchase noFail st pur req = .ok (st2, pur2) ∧
      pur2.partyId = some pid ∧
      pur2.items = req.items.getD pur.items ∧
      pur2.totalAmount = totalOf (req.items.getD pur.items) ∧
      (∀ q, lookupBal st2.balances q = if q = pid
        then some (c + (totalOf (req.items.getD pur.items) - pur.totalAmount))
        else lookupBal st.balances q) ∧
      st2.invItems =
        (if req.items.isSome ∧ pur.items ≠ req.items.getD pur.items then
          purchaseUpdateBardana
            (purchaseCreateStocks noFail
              (purchaseRestoreStocks noFail st.invItems pur.items)
              (req.items.getD pur.items))
            pur.items (req.items.getD pur.items)
        else st.invItems) := by
  by_cases hT : pur.totalAmount ≠ totalOf (req.items.getD pur.items)
  · refine ⟨⟨(setBal st.balances pid
        (c + (totalOf (req.items.getD pur.items) - pur.totalAmount))),
      (if req.items.isSome ∧ pur.items ≠ req.items.getD pur.items then
          purchaseUpdateBardana
            (purchaseCreateStocks noFail
              (purchaseRestoreStocks noFail st.invItems pur.items)
              (req.items.getD pur.items))
            pur.items (req.items.getD pur.items)
        else st.invItems)⟩,
      { pur with
        supplierName := applyStr pur.supplierName req.supplierName
        phoneNumber := applyStr pur.phoneNumber req.phoneNumber
        items := req.items.getD pur.items
        totalAmount := totalOf (req.items.getD pur.items)
        date := applyStr pur.date req.date
        status := req.status.getD pur.status
        pdfUri := (match req.pdfUri with
                   | some u => some u
                   | none => pur.pdfUri) },
      ?_, ?_, rfl, rfl, ?_, rfl⟩
    · simp only [updatePurchase, hpid, updateBalance, hbal]
      rw [if_pos hT]
    · simpa using hpid
    · intro q
      show lookupBal (setBal st.balances pid
        (c + (totalOf (req.items.getD pur.items) - pur.totalAmount))) q = _
      rw [lookupBal_setBal]
      by_cases hq : q = pid
      · subst hq
        rw [if_pos rfl, if_pos rfl, hbal]
        rfl
      · rw [if_neg hq, if_neg hq]
  · push_neg at hT
    refine ⟨⟨st.balances,
      (if req.items.isSome ∧ pur.items ≠ req.items.getD pur.items then
          purchaseUpdateBardana
            (purchaseCreateStocks noFail
              (purchaseRestoreStocks noFail st.invItems pur.items)
              (req.items.getD pur.items))
            pur.items (req.items.getD pur.items)
        else st.invItems)⟩,
      { pur with
        supplierName := applyStr pur.supplierName req.supplierName
        phoneNumber := applyStr pur.phoneNumber req.phoneNumber
        items := req.items.getD pur.items
        totalAmount := totalOf (req.items.getD pur.items)
        date := applyStr pur.date req.date
        status := req.status.getD pur.status
        pdfUri := (match req.pdfUri with
                   | some u => some u
                   | none => pur.pdfUri) },
      ?_, ?_, rfl, rfl, ?_, rfl⟩
    · simp only [updatePurchase, hpid, updateBalance, hbal]
      rw [if_neg (fun h => h hT)]
    · simpa using hpid
    · intro q
      by_cases hq : q = pid
      · subst hq
        rw [if_pos rfl, hbal, hT]
        norm_num
      · rw [if_neg hq]

theorem deletePurchase_ok (st : St) (pur : PurchaseDoc) (pid : Nat) (c : Rat)
    (hpid : pur.partyId = some pid)
    (hbal : lookupBal st.balances pid = some c) :
    ∃ st3, deletePurchase noFail st pur = .ok st3 ∧
      (∀ q, lookupBal st3.balances q = if q = pid
        then some (c - pur.totalAmount) else lookupBal st.balances q) ∧
      st3.invItems = purchaseDeleteBardana
        (purchaseRestoreStocks noFail st.invItems pur.items) pur.items := by
  refine ⟨⟨setBal st.balances pid (c - pur.totalAmount),
      purchaseDeleteBardana
        (purchaseRestoreStocks noFail st.invItems pur.items) pur.items⟩,
    ?_, ?_, rfl⟩
  · simp only [deletePurchase, hpid, updateBalance, hbal]
  · intro q
    show lookupBal (setBal st.balances pid (c - pur.totalAmount)) q = _
    rw [lookupBal_setBal]
    by_cases hq : q = pid
    · subst hq
      rw [if_pos rfl, if_pos rfl, hbal]
      rfl
    · rw [if_neg hq, if_neg hq]

/-- C1: for every purchase and every sequence create → update (of items
and/or fields) → delete, executed without concurrent interleaving, the net
effect on every party balance and every item stock (the universal Bardana
item included) is zero: after the delete, ledger and inventory lookups agree
with the state before the create.  Hypotheses: the supplier party resolves,
item ids are unique in the store, stocks start nonnegative, and the line-item
quantities of both requests are nonnegative. -/
theorem c1_purchase_roundtrip (st : St) (req : PurchaseReq)
    (ureq : PurchaseUpdateReq) (b : Rat)
    (hb : lookupBal st.balances req.pid = some b)
    (hsn : req.supplierName ≠ "") (hpn : req.phoneNumber ≠ "")
    (hdt : req.date ≠ "") (hne : req.items ≠ [])
    (hstock : AllNonneg st.invItems)
    (hnd : (keysOf st.invItems).Nodup)
    (hq1 : ∀ li ∈ req.items, 0 ≤ li.quantity)
    (hq2 : ∀ li ∈ ureq.items.getD req.items, 0 ≤ li.quantity) :
    ∃ st1 pur1 st2 pur2 st3,
      createPurchase noFail false st req = .ok (st1, pur1) ∧
      updatePurchase noFail st1 pur1 ureq = .ok (st2, pur2) ∧
      deletePurchase noFail st2 pur2 = .ok st3 ∧
      (∀ q, lookupBal st3.balances q = lookupBal st.balances q) ∧
      (∀ iid, lookupItem st3.invItems iid = lookupItem st.invItems iid) := by
  obtain ⟨st1, pur1, hcr, hpid1, hitems1, htot1, hbal1, hinv1⟩ :=
    createPurchase_ok noFail st req b hb hsn hpn hdt hne
  have hbal1pid : lookupBal st1.balances req.pid =
      some (b + totalOf req.items) := by
    rw [hbal1, if_pos rfl]
  obtain ⟨st2, pur2, hup, hpid2, hitems2, htot2, hbal2, hinv2⟩ :=
    updatePurchase_ok st1 pur1 ureq req.pid (b + totalOf req.items)
      hpid1 hbal1pid
  have hbal2pid : lookupBal st2.balances req.pid =
      some ((b + totalOf req.items) +
        (totalOf (ureq.items.getD pur1.items) - pur1.totalAmount)) := by
    rw [hbal2, if_pos rfl]
  obtain ⟨st3, hdel, hbal3, hinv3⟩ :=
    deletePurchase_ok st2 pur2 req.pid _ hpid2 hbal2pid
  refine ⟨st1, pur1, st2, pur2, st3, hcr, hup, hdel, ?_, ?_⟩
  · intro q
    rw [hbal3]
    by_cases hq : q = req.pid
    · subst hq
      rw [if_pos rfl, htot2, hitems1, htot1, hb]
      congr 1
      ring
    · rw [if_neg hq, hbal2, if_neg hq, hbal1, if_neg hq]
  · intro iid
    rw [hinv3, hinv2, hitems2, hitems1, hinv1]
    by_cases hC : ureq.items.isSome ∧ req.items ≠ ureq.items.getD req.items
    · rw [if_pos hC]
      exact inv_roundtrip_full st.invItems req.items
        (ureq.items.getD req.items) hstock hnd hq1 hq2 iid
    · rw [if_neg hC]
      have hL : ureq.items.getD req.items = req.items := by
        cases hu : ureq.items with
        | none => rfl
        | some l =>
          rw [hu] at hC
          simp only [Option.isSome_some, true_and, Option.getD_some] at hC ⊢
          exact (not_ne_iff.mp hC).symm
      rw [hL]
      exact inv_roundtrip_short st.invItems req.items hstock hnd hq1 iid


theorem allNonneg_setStock {inv : Items} (h : AllNonneg inv) (k : Nat)
    {v : Rat} (hv : 0 ≤ v) : AllNonneg (setStock inv k v) := by
  induction inv with
  | nil => intro p hp; simp [setStock] at hp
  | cons hd tl ih =>
    obtain ⟨j, it⟩ := hd
    have htl : AllNonneg tl := fun p hp => h p (by simp [hp])
    by_cases hj : j = k
    · intro p hp
      simp only [setStock, if_pos hj, List.mem_cons] at hp
      rcases hp with hp | hp
      · subst hp; exact hv
      · exact h p (by simp [hp])
    · intro p hp
      simp only [setStock, if_neg hj, List.mem_cons] at hp
      rcases hp with hp | hp
      · subst hp; exact h (j, it) (by simp)
      · exact ih htl p hp

theorem allNonneg_createStep {inv : Items} (h : AllNonneg inv)
    (f : Nat → Bool) {li : LineItem} (hq : 0 ≤ li.quantity) :
    AllNonneg (createStep f inv li) := by
  unfold createStep
  by_cases hf : f li.id
  · simpa [hf] using h
  · simp only [hf, if_false, Bool.false_eq_true]
    cases hlk : lookupItem inv li.id with
    | none => exact h
    | some it =>
      have h0 : 0 ≤ it.openingStock := h _ (lookupItem_mem hlk)
      exact allNonneg_setStock h li.id (by positivity)

theorem allNonneg_restoreStep {inv : Items} (h : AllNonneg inv)
    (f : Nat → Bool) (li : LineItem) : AllNonneg (restoreStep f inv li) := by
  unfold restoreStep
  by_cases hf : f li.id
  · simpa [hf] using h
  · simp only [hf, if_false, Bool.false_eq_true]
    cases hlk : lookupItem inv li.id with
    | none => exact h
    | some it => exact allNonneg_setStock h li.id (clamp0_nonneg _)

theorem allNonneg_createStocks {inv : Items} (h : AllNonneg inv)
    (f : Nat → Bool) {L : List LineItem}
    (hq : ∀ li ∈ L, 0 ≤ li.quantity) :
    AllNonneg (purchaseCreateStocks f inv L) := by
  induction L generalizing inv with
  | nil => exact h
  | cons li L ih =>
    show AllNonneg (purchaseCreateStocks f (createStep f inv li) L)
    exact ih (allNonneg_createStep h f (hq li (by simp)))
      (fun x hx => hq x (by simp [hx]))

theorem allNonneg_restoreStocks {inv : Items} (h : AllNonneg inv)
    (f : Nat → Bool) {L : List LineItem} :
    AllNonneg (purchaseRestoreStocks f inv L) := by
  induction L generalizing inv with
  | nil => exact h
  | cons li L ih =>
    show AllNonneg (purchaseRestoreStocks f (restoreStep f inv li) L)
    exact ih (allNonneg_restoreStep h f li)

theorem allNonneg_createBardana {inv : Items} (h : AllNonneg inv)
    {L : List LineItem} (hS : 0 ≤ sumKg L) :
    AllNonneg (purchaseCreateBardana inv L) := by
  cases hfb : findBardana inv with
  | none => rw [purchaseCreateBardana_none L hfb]; exact h
  | some p =>
    obtain ⟨bk, itb⟩ := p
    rw [purchaseCreateBardana_some L hfb]
    have h0 : 0 ≤ itb.openingStock := h _ (findBardana_mem hfb)
    exact allNonneg_setStock h bk (by positivity)

theorem allNonneg_updateBardana {inv : Items} (h : AllNonneg inv)
    (oldL newL : List LineItem) :
    AllNonneg (purchaseUpdateBardana inv oldL newL) := by
  cases hfb : findBardana inv with
  | none => rw [purchaseUpdateBardana_none oldL newL hfb]; exact h
  | some p =>
    obtain ⟨bk, itb⟩ := p
    rw [purchaseUpdateBardana_some oldL newL hfb]
    exact allNonneg_setStock h bk (clamp0_nonneg _)

theorem allNonneg_deleteBardana {inv : Items} (h : AllNonneg inv)
    (L : List LineItem) : AllNonneg (purchaseDeleteBardana inv L) := by
  cases hfb : findBardana inv with
  | none => rw [purchaseDeleteBardana_none L hfb]; exact h
  | some p =>
    obtain ⟨bk, itb⟩ := p
    rw [purchaseDeleteBardana_some L hfb]
    exact allNonneg_setStock h bk (clamp0_nonneg _)






theorem createPurchase_outcome_invItems (f : Nat → Bool) (ledger : Bool)
    (st : St) (req : PurchaseReq) :
    (match createPurchase f ledger st req with
     | .ok (st1, _) => st1
     | .error st1 => st1).invItems = st.invItems ∨
    (match createPurchase f ledger st req with
     | .ok (st1, _) => st1
     | .error st1 => st1).invItems =
      purchaseCreateBardana (purchaseCreateStocks f st.invItems req.items)
        req.items := by
  by_cases hval : req.supplierName = "" ∨ req.phoneNumber = "" ∨
      req.date = ""
  · left; simp [createPurchase, if_pos hval]
  · by_cases hne : req.items = []
    · left; simp [createPurchase, if_neg hval, if_pos hne]
    · cases ledger with
      | true => left; simp [createPurchase, if_neg hval, if_neg hne]
      | false =>
        cases hub : updateBalance (findOrCreate st.balances req.pid) req.pid
            (totalOf req.items) BalOp.add with
        | error e => left; simp [createPurchase, if_neg hval, if_neg hne, hub]
        | ok bal2 =>
          right; simp [createPurchase, if_neg hval, if_neg hne, hub]

theorem updatePurchase_outcome_invItems (f : Nat → Bool) (st : St)
    (pur : PurchaseDoc) (req : PurchaseUpdateReq) :
    (match updatePurchase f st pur req with
     | .ok (st1, _) => st1
     | .error st1 => st1).invItems = st.invItems ∨
    (match updatePurchase f st pur req with
     | .ok (st1, _) => st1
     | .error st1 => st1).invItems =
      purchaseUpdateBardana
        (purchaseCreateStocks f
          (purchaseRestoreStocks f st.invItems pur.items)
          (req.items.getD pur.items))
        pur.items (req.items.getD pur.items) := by
  cases hpid : pur.partyId with
  | none =>
    by_cases hC : req.items.isSome ∧ pur.items ≠ req.items.getD pur.items
    · right; simp [updatePurchase, hpid, if_pos hC]
    · left; simp [updatePurchase, hpid, if_neg hC]
  | some pid =>
    by_cases hT : pur.totalAmount ≠ totalOf (req.items.getD pur.items)
    · cases hub : updateBalance st.balances pid
          (totalOf (req.items.getD pur.items) - pur.totalAmount) BalOp.add with
      | error e => left; simp [updatePurchase, hpid, if_pos hT, hub]
      | ok bal1 =>
        by_cases hC : req.items.isSome ∧ pur.items ≠ req.items.getD pur.items
        · right; simp [updatePurchase, hpid, if_pos hT, hub, if_pos hC]
        · left; simp [updatePurchase, hpid, if_pos hT, hub, if_neg hC]
    · by_cases hC : req.items.isSome ∧ pur.items ≠ req.items.getD pur.items
      · right; simp [updatePurchase, hpid, if_neg hT, if_pos hC]
      · left; simp [updatePurchase, hpid, if_neg hT, if_neg hC]

theorem deletePurchase_outcome_invItems (f : Nat → Bool) (st : St)
    (pur : PurchaseDoc) :
    (match deletePurchase f st pur with
     | .ok st1 => st1
     | .error st1 => st1).invItems =
      purchaseDeleteBardana
        (purchaseRestoreStocks f st.invItems pur.items) pur.items := by
  cases hpid : pur.partyId with
  | none => simp [deletePurchase, hpid]
  | some pid =>
    cases hub : updateBalance st.balances pid pur.totalAmount
        BalOp.subtract with
    | error e => simp [deletePurchase, hpid, hub]
    | ok bal1 => simp [deletePurchase, hpid, hub]

theorem allNonneg_runPOp (st : St) (op : POp) (h : AllNonneg st.invItems)
    (hop : POpNonneg op) : AllNonneg (runPOp st op).invItems := by
  cases op with
  | create req =>
    show AllNonneg (match createPurchase noFail false st req with
      | .ok (st1, _) => st1
      | .error st1 => st1).invItems
    rcases createPurchase_outcome_invItems noFail false st req with he | he
    · rw [he]; exact h
    · rw [he]
      exact allNonneg_createBardana
        (allNonneg_createStocks h noFail hop) (sumKg_nonneg hop)
  | update pur req =>
    show AllNonneg (match updatePurchase noFail st pur req with
      | .ok (st1, _) => st1
      | .error st1 => st1).invItems
    rcases updatePurchase_outcome_invItems noFail st pur req with he | he
    · rw [he]; exact h
    · rw [he]
      exact allNonneg_updateBardana
        (allNonneg_createStocks (allNonneg_restoreStocks h noFail) noFail hop)
        pur.items (req.items.getD pur.items)
  | delete pur =>
    show AllNonneg (match deletePurchase noFail st pur with
      | .ok st1 => st1
      | .error st1 => st1).invItems
    rw [deletePurchase_outcome_invItems noFail st pur]
    exact allNonneg_deleteBardana (allNonneg_restoreStocks h noFail) pur.items

/-- C2: for every item, including the universal aggregate Bardana item, the
stored `openingStock` is never negative after any sequence of purchase
create, update and delete operations, provided stocks start nonnegative and
request quantities are nonnegative; every stock decrease is clamped at 0, and
the unclamped increases add nonnegative request quantities. -/
theorem c2_stock_never_negative (st : St) (ops : List POp)
    (h : AllNonneg st.invItems) (hops : ∀ op ∈ ops, POpNonneg op) :
    AllNonneg (runPOps st ops).invItems := by
  induction ops generalizing st with
  | nil => exact h
  | cons op ops ih =>
    show AllNonneg (runPOps (runPOp st op) ops).invItems
    exact ih (runPOp st op)
      (allNonneg_runPOp st op h (hops op (by simp)))
      (fun o ho => hops o (by simp [ho]))

theorem c1_purchase_roundtrip_witness :
    lookupBal [(1, (100:Rat))] 1 = some 100 ∧
    AllNonneg [(5, ⟨2, false, "Rice"⟩), (9, ⟨0, true, "Bardana"⟩)] ∧
    ∃ st1 pur1 st2 pur2 st3,
      createPurchase noFail false
        ⟨[(1, 100)], [(5, ⟨2, false, "Rice"⟩), (9, ⟨0, true, "Bardana"⟩)]⟩
        ⟨"S", "p", [⟨5, 300, 2⟩, ⟨7, 60, 1⟩], "d", .pending, none, 1⟩ =
        .ok (st1, pur1) ∧
      updatePurchase noFail st1 pur1
        ⟨none, none, some [⟨5, 150, 3⟩], none, some .completed, none⟩ =
        .ok (st2, pur2) ∧
      deletePurchase noFail st2 pur2 = .ok st3 ∧
      (∀ q, lookupBal st3.balances q = lookupBal [(1, (100:Rat))] q) ∧
      (∀ iid, lookupItem st3.invItems iid =
        lookupItem [(5, ⟨2, false, "Rice"⟩), (9, ⟨0, true, "Bardana"⟩)] iid) :=
  ⟨by decide, by decide,
    c1_purchase_roundtrip
      ⟨[(1, 100)], [(5, ⟨2, false, "Rice"⟩), (9, ⟨0, true, "Bardana"⟩)]⟩
      ⟨"S", "p", [⟨5, 300, 2⟩, ⟨7, 60, 1⟩], "d", .pending, none, 1⟩
      ⟨none, none, some [⟨5, 150, 3⟩], none, some .completed, none⟩
      100 (by decide) (by decide) (by decide) (by decide) (by decide)
      (by decide) (by decide) (by decide) (by decide)⟩

theorem c2_stock_never_negative_witness :
    AllNonneg [(4, ⟨1, false, "Wheat"⟩), (9, ⟨0, true, "Bardana"⟩)] ∧
    (∀ op ∈ ([.create ⟨"S", "p", [⟨4, 90, 2⟩], "d", .pending, none, 1⟩,
       .update ⟨"S", "p", [⟨4, 90, 2⟩], 180, "d", .pending, none, some 1⟩
         ⟨none, none, some [⟨4, 30, 2⟩, ⟨8, 60, 1⟩], none, none, none⟩,
       .delete ⟨"S", "p", [⟨4, 600, 2⟩], 1200, "d", .pending, none,
         some 1⟩] : List POp), POpNonneg op) ∧
    AllNonneg (runPOps
      ⟨[(1, 0)], [(4, ⟨1, false, "Wheat"⟩), (9, ⟨0, true, "Bardana"⟩)]⟩
      [.create ⟨"S", "p", [⟨4, 90, 2⟩], "d", .pending, none, 1⟩,
       .update ⟨"S", "p", [⟨4, 90, 2⟩], 180, "d", .pending, none, some 1⟩
         ⟨none, none, some [⟨4, 30, 2⟩, ⟨8, 60, 1⟩], none, none, none⟩,
       .delete ⟨"S", "p", [⟨4, 600, 2⟩], 1200, "d", .pending, none,
         some 1⟩]).invItems :=
  ⟨by decide, by decide,
    c2_stock_never_negative
      ⟨[(1, 0)], [(4, ⟨1, false, "Wheat"⟩), (9, ⟨0, true, "Bardana"⟩)]⟩
      [.create ⟨"S", "p", [⟨4, 90, 2⟩], "d", .pending, none, 1⟩,
       .update ⟨"S", "p", [⟨4, 90, 2⟩], 180, "d", .pending, none, some 1⟩
         ⟨none, none, some [⟨4, 30, 2⟩, ⟨8, 60, 1⟩], none, none, none⟩,
       .delete ⟨"S", "p", [⟨4, 600, 2⟩], 1200, "d", .pending, none,
         some 1⟩]
      (by decide) (by decide)⟩

theorem paymentPreSave_partyId (p : PaymentDoc) :
    (paymentPreSave p).partyId = p.partyId := by
  unfold paymentPreSave
  dsimp only
  split <;> split <;> rfl

theorem paymentPreSave_amount (p : PaymentDoc) :
    (paymentPreSave p).amount = p.amount := by
  unfold paymentPreSave
  dsimp only
  split <;> split <;> rfl

theorem paymentPreSave_type (p : PaymentDoc) :
    (paymentPreSave p).type = p.type := by
  unfold paymentPreSave
  dsimp only
  split <;> split <;> rfl

theorem paymentPreSave_status (p : PaymentDoc) :
    (paymentPreSave p).status = p.status := by
  unfold paymentPreSave
  dsimp only
  split <;> split <;> rfl

theorem paymentPreSave_totalAmount (p : PaymentDoc) :
    (paymentPreSave p).totalAmount =
      if p.totalAmount = 0 ∧ p.amount ≠ 0 then p.amount else p.totalAmount := by
  unfold paymentPreSave
  dsimp only
  split <;> split <;> simp_all

theorem updatePartyBalance_some (bal : Balances) (pay : PaymentDoc)
    (pid : Nat) (b : Rat) (hpid : pay.partyId = some pid)
    (hb : lookupBal bal pid = some b) :
    updatePartyBalance bal pay = .ok (setBal bal pid (b - pay.amount)) := by
  unfold updatePartyBalance
  rw [hpid]
  simp only [ite_self]
  unfold updateBalance
  rw [hb]

theorem updatePartyBalance_notFound (bal : Balances) (pay : PaymentDoc)
    (pid : Nat) (hpid : pay.partyId = some pid)
    (hb : lookupBal bal pid = none) :
    updatePartyBalance bal pay = .error () := by
  unfold updatePartyBalance
  rw [hpid]
  simp only [ite_self]
  unfold updateBalance
  rw [hb]

theorem paymentStatusUpdate_toggle (bal : Balances) (pay : PaymentDoc)
    (pid : Nat) (b : Rat) (s : Status)
    (htog : (pay.status = .completed ∧ s = .cancelled) ∨
      (pay.status = .cancelled ∧ s = .completed))
    (hpid : pay.partyId = some pid) (hb : lookupBal bal pid = some b) :
    paymentStatusUpdate bal pay s =
      .ok (setBal bal pid (b - pay.amount),
        paymentPreSave { pay with status := s }, true) := by
  unfold paymentStatusUpdate
  rw [if_pos htog]
  rw [updatePartyBalance_some bal _ pid b
    (by rw [paymentPreSave_partyId]; exact hpid) hb]
  rw [paymentPreSave_amount]

theorem paymentStatusUpdate_silent (bal : Balances) (pay : PaymentDoc)
    (s : Status)
    (hntog : ¬((pay.status = .completed ∧ s = .cancelled) ∨
      (pay.status = .cancelled ∧ s = .completed))) :
    paymentStatusUpdate bal pay s =
      .ok (bal, paymentPreSave { pay with status := s }, false) := by
  unfold paymentStatusUpdate
  rw [if_neg hntog]

theorem paymentStatusUpdate_notFound (bal : Balances) (pay : PaymentDoc)
    (pid : Nat) (s : Status)
    (htog : (pay.status = .completed ∧ s = .cancelled) ∨
      (pay.status = .cancelled ∧ s = .completed))
    (hpid : pay.partyId = some pid) (hb : lookupBal bal pid = none) :
    paymentStatusUpdate bal pay s = .error () := by
  unfold paymentStatusUpdate
  rw [if_pos htog]
  rw [updatePartyBalance_notFound bal _ pid
    (by rw [paymentPreSave_partyId]; exact hpid) hb]



/-- C3 (code evaluated at the failing input): ten sequential non-concurrent
payment-in creations, each persisting the returned number, yield
PAY-IN-1 … PAY-IN-10; the eleventh call to `generateNextPaymentNumber`
returns PAY-IN-10 again — a number already persisted — because the
`sort({paymentNo: -1})` lookup is lexicographic and ranks PAY-IN-9 above
PAY-IN-10.  The suffixes are therefore not strictly increasing, and saving
the duplicate violates the schema's unique `paymentNo` index. -/
theorem c3_payment_number_not_increasing :
    paymentNoSeq 10 = ["PAY-IN-1", "PAY-IN-2", "PAY-IN-3", "PAY-IN-4",
      "PAY-IN-5", "PAY-IN-6", "PAY-IN-7", "PAY-IN-8", "PAY-IN-9",
      "PAY-IN-10"] ∧
    generateNextPaymentNumber (paymentNoSeq 10) .payIn = "PAY-IN-10" ∧
    "PAY-IN-10" ∈ paymentNoSeq 10 := by decide

/-- C4 counterexample: with party 1 at balance 100 and the completed
payment `c4Pay` of amount 50, toggling completed→cancelled→completed leaves
the balance at 0, not 100: the net effect of the two transitions is
−2·amount, not zero as claimed. -/
theorem c4_counterexample :
    c4Run = some 0 ∧ lookupBal [(1, (100:Rat))] 1 = some 100 ∧
    some (0:Rat) ≠ some (100:Rat) := by with_unfolding_all decide

/-- C4 amended: setting a completed payment's status to cancelled re-invokes
`updatePartyBalance`, and setting it back re-invokes it again, but both
invocations subtract the amount under the symmetric sign policy, so the net
effect of the two transitions on the party balance is −2·amount (zero only
for amount 0), not zero. -/
theorem c4_double_toggle_subtracts_twice (bal : Balances) (pay : PaymentDoc)
    (pid : Nat) (b : Rat) (hpid : pay.partyId = some pid)
    (hst : pay.status = .completed) (hb : lookupBal bal pid = some b) :
    ∃ bal1 pay1 bal2 pay2,
      paymentStatusUpdate bal pay .cancelled = .ok (bal1, pay1, true) ∧
      paymentStatusUpdate bal1 pay1 .completed = .ok (bal2, pay2, true) ∧
      lookupBal bal2 pid = some (b - 2 * pay.amount) := by
  have h1 := paymentStatusUpdate_toggle bal pay pid b .cancelled
    (Or.inl ⟨hst, rfl⟩) hpid hb
  have hpay1st : (paymentPreSave { pay with status := Status.cancelled }).status =
      Status.cancelled := by rw [paymentPreSave_status]
  have hpay1pid : (paymentPreSave { pay with status := Status.cancelled }).partyId =
      some pid := by rw [paymentPreSave_partyId]; exact hpid
  have hb1 : lookupBal (setBal bal pid (b - pay.amount)) pid =
      some (b - pay.amount) := by
    rw [lookupBal_setBal, if_pos rfl, hb]
    rfl
  have h2 := paymentStatusUpdate_toggle (setBal bal pid (b - pay.amount))
    (paymentPreSave { pay with status := Status.cancelled }) pid
    (b - pay.amount) .completed (Or.inr ⟨hpay1st, rfl⟩) hpay1pid hb1
  refine ⟨_, _, _, _, h1, h2, ?_⟩
  rw [lookupBal_setBal, if_pos rfl, hb1]
  rw [paymentPreSave_amount]
  show some (b - pay.amount - pay.amount) = _
  congr 1
  ring

theorem c4_double_toggle_subtracts_twice_witness :
    c4Pay.partyId = some 1 ∧ c4Pay.status = .completed ∧
    lookupBal [(1, (100:Rat))] 1 = some 100 ∧
    ∃ bal1 pay1 bal2 pay2,
      paymentStatusUpdate [(1, (100:Rat))] c4Pay .cancelled =
        .ok (bal1, pay1, true) ∧
      paymentStatusUpdate bal1 pay1 .completed = .ok (bal2, pay2, true) ∧
      lookupBal bal2 1 = some (100 - 2 * c4Pay.amount) :=
  ⟨by decide, by decide, by decide,
    c4_double_toggle_subtracts_twice [(1, 100)] c4Pay 1 100
      (by decide) (by decide) (by decide)⟩

/-- C5 counterexample: the purchase status handler performs no ledger call at
all: toggling a completed purchase to cancelled does not re-invoke the
reconciliation (the invoked flag is `false`), contradicting the claim that
`completed→cancelled` re-triggers `updatePartyBalance` for purchases too. -/
theorem c5_counterexample :
    (purchaseStatusUpdate ⟨"S", "p", [], 100, "d", .completed, none, some 1⟩
      .cancelled).2 = false ∧
    (purchaseStatusUpdate ⟨"S", "p", [], 100, "d", .completed, none, some 1⟩
      .cancelled).1.status = .cancelled := by decide

/-- C5 amended: for Payment status updates with a resolved party the ledger
reconciliation is re-invoked exactly on the completed↔cancelled transitions,
and transitions that are not such a toggle (in particular every transition
involving pending) leave the party balances unchanged; Purchase status
updates never invoke the reconciliation and never touch a balance (the
handler takes no balance state at all). -/
theorem c5_status_ledger_effects :
    (∀ pur s, (purchaseStatusUpdate pur s).2 = false ∧
      (purchaseStatusUpdate pur s).1.status = s) ∧
    (∀ bal pay (pid : Nat) (b : Rat) s, pay.partyId = some pid →
      lookupBal bal pid = some b →
      ∃ bal2 pay2 invoked,
        paymentStatusUpdate bal pay s = .ok (bal2, pay2, invoked) ∧
        (invoked = true ↔ ((pay.status = .completed ∧ s = .cancelled) ∨
          (pay.status = .cancelled ∧ s = .completed))) ∧
        (invoked = false → bal2 = bal)) := by
  constructor
  · intro pur s
    exact ⟨rfl, rfl⟩
  · intro bal pay pid b s hpid hb
    by_cases htog : (pay.status = .completed ∧ s = .cancelled) ∨
      (pay.status = .cancelled ∧ s = .completed)
    · exact ⟨_, _, true,
        paymentStatusUpdate_toggle bal pay pid b s htog hpid hb,
        by simp [htog], by simp⟩
    · exact ⟨_, _, false, paymentStatusUpdate_silent bal pay s htog,
        by simp [htog], fun _ => rfl⟩

theorem c5_status_ledger_effects_witness :
    ((purchaseStatusUpdate ⟨"S", "p", [], 100, "d", .pending, none, some 1⟩
        .completed).2 = false ∧
      (purchaseStatusUpdate ⟨"S", "p", [], 100, "d", .pending, none, some 1⟩
        .completed).1.status = .completed) ∧
    (c4Pay.partyId = some 1 ∧ lookupBal [(1, (70:Rat))] 1 = some 70 ∧
      ∃ bal2 pay2 invoked,
        paymentStatusUpdate [(1, (70:Rat))] c4Pay .pending =
          .ok (bal2, pay2, invoked) ∧
        (invoked = true ↔ ((c4Pay.status = .completed ∧
            Status.pending = .cancelled) ∨
          (c4Pay.status = .cancelled ∧ Status.pending = .completed))) ∧
        (invoked = false → bal2 = [(1, (70:Rat))])) :=
  ⟨c5_status_ledger_effects.1 _ _,
    ⟨by decide, by decide,
      c5_status_ledger_effects.2 [(1, 70)] c4Pay 1 70 Status.pending
        (by decide) (by decide)⟩⟩

/-- C6: on payment creation with a resolved party, and on every
completed↔cancelled status toggle, the party balance is adjusted with the
`subtract` operation by the payment amount — with the same sign for
payment-in and payment-out (`req.type` and `pay.type` are arbitrary below and
the resulting balance does not depend on them). -/
theorem c6_payment_subtracts_for_both_types :
    (∀ (bal : Balances) (pnos : List String) (req : PaymentReq) (b : Rat),
      lookupBal bal req.pid = some b →
      req.partyName ≠ "" → req.phoneNumber ≠ "" → req.date ≠ "" →
      0 < req.amount →
      ∃ pay, createPayment bal pnos req =
        .ok (setBal bal req.pid (b - req.amount), pay) ∧
        pay.amount = req.amount ∧ pay.type = req.type) ∧
    (∀ bal pay (pid : Nat) (b : Rat) s,
      pay.partyId = some pid → lookupBal bal pid = some b →
      ((pay.status = .completed ∧ s = .cancelled) ∨
        (pay.status = .cancelled ∧ s = .completed)) →
      ∃ pay2, paymentStatusUpdate bal pay s =
        .ok (setBal bal pid (b - pay.amount), pay2, true)) := by
  constructor
  · intro bal pnos req b hb hn hp hd hpos
    have hval : ¬(req.partyName = "" ∨ req.phoneNumber = "" ∨
        req.amount = 0 ∨ req.date = "") := by
      rintro (h | h | h | h)
      · exact hn h
      · exact hp h
      · exact absurd h (ne_of_gt hpos)
      · exact hd h
    simp only [createPayment, if_neg hval, if_neg (not_le.mpr hpos),
      findOrCreate_present hb]
    rw [updatePartyBalance_some bal _ req.pid b
      (by rw [paymentPreSave_partyId]) hb]
    rw [paymentPreSave_amount]
    exact ⟨_, rfl, paymentPreSave_amount _, paymentPreSave_type _⟩
  · intro bal pay pid b s hpid hb htog
    exact ⟨_, paymentStatusUpdate_toggle bal pay pid b s htog hpid hb⟩

theorem c6_payment_subtracts_for_both_types_witness :
    (lookupBal [(7, (20:Rat))] 7 = some 20 ∧ ("B" : String) ≠ "" ∧
      ("+917" : String) ≠ "" ∧ ("2/2/2025" : String) ≠ "" ∧ (0:Rat) < 60 ∧
      ∃ pay, createPayment [(7, (20:Rat))] []
        ⟨.payOut, "B", "+917", 60, none, "2/2/2025", .completed, none,
          "cash", none, 7⟩ =
        .ok (setBal [(7, (20:Rat))] 7 (20 - 60), pay) ∧
        pay.amount = 60 ∧ pay.type = .payOut) ∧
    (c4Pay.partyId = some 1 ∧ lookupBal [(1, (5:Rat))] 1 = some 5 ∧
      ∃ pay2, paymentStatusUpdate [(1, (5:Rat))] c4Pay .cancelled =
        .ok (setBal [(1, (5:Rat))] 1 (5 - c4Pay.amount), pay2, true)) :=
  ⟨⟨by decide, by decide, by decide, by decide, by decide,
    c6_payment_subtracts_for_both_types.1 [(7, 20)] []
      ⟨.payOut, "B", "+917", 60, none, "2/2/2025", .completed, none,
        "cash", none, 7⟩ 20
      (by decide) (by decide) (by decide) (by decide) (by decide)⟩,
   ⟨by decide, by decide,
    c6_payment_subtracts_for_both_types.2 [(1, 5)] c4Pay 1 5 .cancelled
      (by decide) (by decide) (by decide)⟩⟩




/-- C7 counterexample: create a payment with amount 100 and no provided
totalAmount (persisted totalAmount 100), then update its amount to 200
without providing totalAmount: the persisted payment now has amount 200 but
totalAmount 100 — totalAmount is not recomputed before persistence and does
not reflect the current amount. -/
theorem c7_counterexample :
    c7Updated.map (fun p => p.amount) = some 200 ∧
    c7Updated.map (fun p => p.totalAmount) = some 100 ∧
    (200 : Rat) ≠ 100 := by with_unfolding_all decide

/-- C7 amended: Purchase persistence (create and update) always recomputes
`totalAmount` from the current line items; a Payment's pre-save hook sets
`totalAmount` to `amount` only when the stored `totalAmount` is falsy (0 or
unset), so a created payment without a provided totalAmount reflects its
amount, but a payment update that does not provide `totalAmount` leaves a
nonzero stored value unchanged — it need not equal the current amount. -/
theorem c7_totalAmount_policy :
    (∀ (f : Nat → Bool) (ledger : Bool) st req st1 pur1,
      createPurchase f ledger st req = .ok (st1, pur1) →
      pur1.totalAmount = totalOf pur1.items) ∧
    (∀ (f : Nat → Bool) st pur req st2 pur2,
      updatePurchase f st pur req = .ok (st2, pur2) →
      pur2.totalAmount = totalOf pur2.items) ∧
    (∀ bal pnos req bal1 pay,
      req.totalAmount = none → createPayment bal pnos req = .ok (bal1, pay) →
      pay.totalAmount = pay.amount) ∧
    (∀ bal pay req bal2 pay2,
      req.totalAmount = none → pay.totalAmount ≠ 0 →
      updatePayment bal pay req = .ok (bal2, pay2) →
      pay2.totalAmount = pay.totalAmount) := by
  refine ⟨?_, ?_, ?_, ?_⟩
  · intro f ledger st req st1 pur1 h
    by_cases hval : req.supplierName = "" ∨ req.phoneNumber = "" ∨
        req.date = ""
    · simp [createPurchase, if_pos hval] at h
    · by_cases hne : req.items = []
      · simp [createPurchase, if_neg hval, if_pos hne] at h
      · cases ledger with
        | true => simp [createPurchase, if_neg hval, if_neg hne] at h
        | false =>
          cases hub : updateBalance (findOrCreate st.balances req.pid)
              req.pid (totalOf req.items) BalOp.add with
          | error e =>
            simp [createPurchase, if_neg hval, if_neg hne, hub] at h
          | ok bal2 =>
            simp [createPurchase, if_neg hval, if_neg hne, hub] at h
            obtain ⟨h1, h2⟩ := h
            rw [← h2]
  · intro f st pur req st2 pur2 h
    cases hpid : pur.partyId with
    | none =>
      simp [updatePurchase, hpid] at h
      obtain ⟨h1, h2⟩ := h
      rw [← h2]
    | some pid =>
      by_cases hT : pur.totalAmount ≠ totalOf (req.items.getD pur.items)
      · cases hub : updateBalance st.balances pid
            (totalOf (req.items.getD pur.items) - pur.totalAmount)
            BalOp.add with
        | error e => simp [updatePurchase, hpid, if_pos hT, hub] at h
        | ok bal1 =>
          simp [updatePurchase, hpid, if_pos hT, hub] at h
          obtain ⟨h1, h2⟩ := h
          rw [← h2]
      · simp [updatePurchase, hpid, if_neg hT] at h
        obtain ⟨h1, h2⟩ := h
        rw [← h2]
  · intro bal pnos req bal1 pay hreqta h
    by_cases hval : req.partyName = "" ∨ req.phoneNumber = "" ∨
        req.amount = 0 ∨ req.date = ""
    · simp [createPayment, if_pos hval] at h
    · by_cases hle : req.amount ≤ 0
      · simp [createPayment, if_neg hval, if_pos hle] at h
      · have hne : req.amount ≠ 0 :=
          fun h0 => hval (Or.inr (Or.inr (Or.inl h0)))
        unfold createPayment at h
        rw [if_neg hval, if_neg hle, hreqta] at h
        dsimp only at h
        split at h
        · exact absurd h (by simp)
        · simp only [Except.ok.injEq, Prod.mk.injEq] at h
          obtain ⟨h1, h2⟩ := h
          rw [← h2, paymentPreSave_totalAmount, paymentPreSave_amount]
          simp [hne]
  · intro bal pay req bal2 pay2 hreqta hnz h
    unfold updatePayment at h
    rw [hreqta] at h
    dsimp only at h
    split at h
    · simp only [Except.ok.injEq, Prod.mk.injEq] at h
      obtain ⟨h1, h2⟩ := h
      rw [← h2, paymentPreSave_totalAmount]
      simp [Option.getD_none, hnz]
    · split at h
      · split at h
        · exact absurd h (by simp)
        · split at h
          · exact absurd h (by simp)
          · simp only [Except.ok.injEq, Prod.mk.injEq] at h
            obtain ⟨h1, h2⟩ := h
            rw [← h2, paymentPreSave_totalAmount]
            simp [Option.getD_none, hnz]
      · simp only [Except.ok.injEq, Prod.mk.injEq] at h
        obtain ⟨h1, h2⟩ := h
        rw [← h2, paymentPreSave_totalAmount]
        simp [Option.getD_none, hnz]

theorem c7_totalAmount_policy_witness :
    ((⟨"S", "p", [⟨3, 30, 2⟩], 60, "d", .pending, none, some 1⟩ :
        PurchaseDoc).totalAmount =
      totalOf (⟨"S", "p", [⟨3, 30, 2⟩], 60, "d", .pending, none, some 1⟩ :
        PurchaseDoc).items) ∧
    ((⟨"S", "p", [⟨3, 60, 1⟩], 60, "d", .pending, none, some 1⟩ :
        PurchaseDoc).totalAmount =
      totalOf (⟨"S", "p", [⟨3, 60, 1⟩], 60, "d", .pending, none, some 1⟩ :
        PurchaseDoc).items) ∧
    ((⟨"PAY-IN-1", .payIn, "A", "+911", 100, 100, "1/1/2025", .completed,
        none, "cash", none, some 1⟩ : PaymentDoc).totalAmount =
      (⟨"PAY-IN-1", .payIn, "A", "+911", 100, 100, "1/1/2025", .completed,
        none, "cash", none, some 1⟩ : PaymentDoc).amount) ∧
    ((⟨"PAY-IN-1", .payIn, "A", "+911", 200, 100, "1/1/2025", .completed,
        none, "cash", none, some 1⟩ : PaymentDoc).totalAmount =
      (⟨"PAY-IN-1", .payIn, "A", "+911", 100, 100, "1/1/2025", .completed,
        none, "cash", none, some 1⟩ : PaymentDoc).totalAmount) :=
  ⟨c7_totalAmount_policy.1 noFail false ⟨[(1, 0)], []⟩
      ⟨"S", "p", [⟨3, 30, 2⟩], "d", .pending, none, 1⟩
      ⟨[(1, 60)], []⟩
      ⟨"S", "p", [⟨3, 30, 2⟩], 60, "d", .pending, none, some 1⟩
      (by with_unfolding_all decide),
   c7_totalAmount_policy.2.1 noFail ⟨[(1, 0)], []⟩
      ⟨"S", "p", [⟨3, 30, 2⟩], 60, "d", .pending, none, some 1⟩
      ⟨none, none, some [⟨3, 60, 1⟩], none, none, none⟩
      ⟨[(1, 0)], []⟩
      ⟨"S", "p", [⟨3, 60, 1⟩], 60, "d", .pending, none, some 1⟩
      (by with_unfolding_all decide),
   c7_totalAmount_policy.2.2.1 [(1, 0)] [] c7Req [(1, -100)]
      ⟨"PAY-IN-1", .payIn, "A", "+911", 100, 100, "1/1/2025", .completed,
        none, "cash", none, some 1⟩
      (by decide) (by with_unfolding_all decide),
   c7_totalAmount_policy.2.2.2 [(1, -100)]
      ⟨"PAY-IN-1", .payIn, "A", "+911", 100, 100, "1/1/2025", .completed,
        none, "cash", none, some 1⟩
      ⟨none, none, some 200, none, none, none, none, none, none⟩
      [(1, -200)]
      ⟨"PAY-IN-1", .payIn, "A", "+911", 200, 100, "1/1/2025", .completed,
        none, "cash", none, some 1⟩
      (by decide) (by decide) (by with_unfolding_all decide)⟩

/-- C9: a payment update that does not change the amount (field absent or
equal to the stored amount) leaves every party balance untouched, whatever
other fields change; an update that changes the amount of a payment with a
resolved party first adds the original amount back and then subtracts the
new amount, so the net balance change is originalAmount − newAmount. -/
theorem c9_payment_update_frame (bal : Balances) (pay : PaymentDoc)
    (req : PaymentUpdateReq) :
    (∀ bal2 pay2, (req.amount = none ∨ req.amount = some pay.amount) →
      updatePayment bal pay req = .ok (bal2, pay2) → bal2 = bal) ∧
    (∀ (pid : Nat) (b a : Rat), pay.partyId = some pid →
      lookupBal bal pid = some b → req.amount = some a → a ≠ pay.amount →
      ∃ bal2 pay2, updatePayment bal pay req = .ok (bal2, pay2) ∧
        (∀ q, lookupBal bal2 q =
          if q = pid then some (b + pay.amount - a)
          else lookupBal bal q)) := by
  constructor
  · intro bal2 pay2 hsame h
    have hamt : req.amount.getD pay.amount = pay.amount := by
      rcases hsame with h0 | h0 <;> simp [h0]
    unfold updatePayment at h
    dsimp only at h
    rw [paymentPreSave_amount, paymentPreSave_partyId] at h
    dsimp only at h
    rw [hamt] at h
    split at h
    · simp only [Except.ok.injEq, Prod.mk.injEq] at h
      exact h.1.symm
    · rw [if_neg (fun hcontr => hcontr rfl)] at h
      simp only [Except.ok.injEq, Prod.mk.injEq] at h
      exact h.1.symm
  · intro pid b a hpid hb hra hne
    unfold updatePayment
    dsimp only
    rw [paymentPreSave_amount, paymentPreSave_partyId]
    dsimp only
    rw [hra, hpid]
    dsimp only [Option.getD_some]
    rw [if_pos (Ne.symm hne)]
    simp only [ite_self]
    unfold updateBalance
    rw [hb]
    dsimp only
    have hb1 : lookupBal (setBal bal pid (b + pay.amount)) pid =
        some (b + pay.amount) := by
      rw [lookupBal_setBal, if_pos rfl, hb]
      rfl
    rw [updatePartyBalance_some (setBal bal pid (b + pay.amount)) _ pid
      (b + pay.amount) (by rw [paymentPreSave_partyId]) hb1]
    rw [paymentPreSave_amount]
    dsimp only
    refine ⟨_, _, rfl, ?_⟩
    intro q
    rw [lookupBal_setBal]
    by_cases hq : q = pid
    · subst hq
      rw [if_pos rfl, if_pos rfl, hb1]
      rfl
    · rw [if_neg hq, if_neg hq, lookupBal_setBal, if_neg hq]

theorem c9_payment_update_frame_witness :
    (([(1, (10:Rat))] : Balances) = [(1, (10:Rat))] ∧
      ∃ bal2 pay2,
        updatePayment [(1, (10:Rat))]
          ⟨"PAY-IN-3", .payOut, "A", "+911", 100, 100, "1/1/2025",
            .completed, none, "cash", none, some 1⟩
          ⟨some "B", none, none, none, none, some .cancelled, none, none,
            none⟩ = .ok (bal2, pay2) ∧ bal2 = [(1, (10:Rat))]) ∧
    (∃ bal2 pay2,
      updatePayment [(1, (10:Rat))]
        ⟨"PAY-IN-3", .payOut, "A", "+911", 100, 100, "1/1/2025",
          .completed, none, "cash", none, some 1⟩
        ⟨none, none, some 40, none, none, none, none, none, none⟩ =
        .ok (bal2, pay2) ∧
      (∀ q, lookupBal bal2 q =
        if q = 1 then some ((10:Rat) + 100 - 40)
        else lookupBal [(1, (10:Rat))] q)) :=
  ⟨⟨rfl, ⟨[(1, (10:Rat))],
      ⟨"PAY-IN-3", .payOut, "B", "+911", 100, 100, "1/1/2025", .cancelled,
        none, "cash", none, some 1⟩,
      by with_unfolding_all decide,
      (c9_payment_update_frame [(1, 10)]
        ⟨"PAY-IN-3", .payOut, "A", "+911", 100, 100, "1/1/2025", .completed,
          none, "cash", none, some 1⟩
        ⟨some "B", none, none, none, none, some .cancelled, none, none,
          none⟩).1 [(1, 10)]
        ⟨"PAY-IN-3", .payOut, "B", "+911", 100, 100, "1/1/2025", .cancelled,
          none, "cash", none, some 1⟩
        (Or.inl rfl) (by with_unfolding_all decide)⟩⟩,
   (c9_payment_update_frame [(1, 10)]
      ⟨"PAY-IN-3", .payOut, "A", "+911", 100, 100, "1/1/2025", .completed,
        none, "cash", none, some 1⟩
      ⟨none, none, some 40, none, none, none, none, none, none⟩).2 1 10 40
      (by decide) (by decide) (by decide) (by decide)⟩

theorem itemsDelta_eq_zero {L : List LineItem} {k : Nat}
    (h : k ∉ L.map LineItem.id) : itemsDelta L k = 0 := by
  induction L with
  | nil => rfl
  | cons li L ih =>
    simp only [List.map_cons, List.mem_cons] at h
    push_neg at h
    simp only [itemsDelta, if_neg (fun he : li.id = k => h.1 he.symm),
      ih h.2, add_zero]

/-- C10: on purchase create, the universal Bardana item's stock increases by
the sum of all line-item quantities divided by 30, whether or not each line
item id resolves to a stored item: an unresolvable line item is silently
skipped for its own stock adjustment (its id still maps to no item) yet
contributes its full quantity to the aggregate Bardana increase. -/
theorem c10_bardana_counts_unresolved_items (st : St) (req : PurchaseReq)
    (b : Rat) (bk : Nat) (itb : InvItem) (k0 : Nat)
    (hb : lookupBal st.balances req.pid = some b)
    (hsn : req.supplierName ≠ "") (hpn : req.phoneNumber ≠ "")
    (hdt : req.date ≠ "") (hne : req.items ≠ [])
    (hbard : findBardana st.invItems = some (bk, itb))
    (hnd : (keysOf st.invItems).Nodup)
    (hbk : bk ∉ req.items.map LineItem.id)
    (hk0 : lookupItem st.invItems k0 = none) :
    ∃ st1 pur1, createPurchase noFail false st req = .ok (st1, pur1) ∧
      lookupItem st1.invItems bk =
        some { itb with openingStock :=
          itb.openingStock + sumKg req.items / 30 } ∧
      lookupItem st1.invItems k0 = none := by
  obtain ⟨st1, pur1, hcr, hpid1, hitems1, htot1, hbal1, hinv1⟩ :=
    createPurchase_ok noFail st req b hb hsn hpn hdt hne
  have hitb : lookupItem st.invItems bk = some itb :=
    lookupItem_of_mem_nodup (findBardana_mem hbard) hnd
  have sh1 : shape (purchaseCreateStocks noFail st.invItems req.items) =
      shape st.invItems := shape_createStocks noFail req.items st.invItems
  have hnd1 : (keysOf (purchaseCreateStocks noFail st.invItems
      req.items)).Nodup := by
    rw [keysOf_eq_of_shape sh1]; exact hnd
  obtain ⟨itbA, hbA, hlA⟩ := findBardana_stable hbard sh1 hnd1
  have hitbA : itbA = { itb with openingStock := itb.openingStock + 0 } := by
    have := lookupItem_createStocks_simple req.items st.invItems bk
    rw [hlA, hitb, itemsDelta_eq_zero hbk] at this
    simpa using this
  have hk0bk : k0 ≠ bk := by
    intro he
    rw [he, hitb] at hk0
    exact Option.noConfusion hk0
  refine ⟨st1, pur1, hcr, ?_, ?_⟩
  · rw [hinv1, purchaseCreateBardana_some req.items hbA, lookupItem_setStock,
      if_pos rfl, hlA]
    simp only [Option.map_some']
    rw [hitbA]
    congr 2
    simp
  · rw [hinv1, purchaseCreateBardana_some req.items hbA, lookupItem_setStock,
      if_neg hk0bk, lookupItem_createStocks_simple, hk0]
    rfl

theorem c10_bardana_counts_unresolved_items_witness :
    lookupBal [(1, (0:Rat))] 1 = some 0 ∧
    findBardana [(9, ⟨4, true, "Bardana"⟩), (5, ⟨2, false, "Rice"⟩)] =
      some (9, ⟨4, true, "Bardana"⟩) ∧
    (9 ∉ ([⟨5, 300, 2⟩, ⟨7, 60, 1⟩] : List LineItem).map LineItem.id) ∧
    lookupItem [(9, ⟨4, true, "Bardana"⟩), (5, ⟨2, false, "Rice"⟩)] 7 =
      none ∧
    ∃ st1 pur1,
      createPurchase noFail false
        ⟨[(1, 0)], [(9, ⟨4, true, "Bardana"⟩), (5, ⟨2, false, "Rice"⟩)]⟩
        ⟨"S", "p", [⟨5, 300, 2⟩, ⟨7, 60, 1⟩], "d", .pending, none, 1⟩ =
        .ok (st1, pur1) ∧
      lookupItem st1.invItems 9 =
        some ⟨4 + sumKg [⟨5, 300, 2⟩, ⟨7, 60, 1⟩] / 30, true, "Bardana"⟩ ∧
      lookupItem st1.invItems 7 = none :=
  ⟨by decide, by decide, by decide, by decide,
    c10_bardana_counts_unresolved_items
      ⟨[(1, 0)], [(9, ⟨4, true, "Bardana"⟩), (5, ⟨2, false, "Rice"⟩)]⟩
      ⟨"S", "p", [⟨5, 300, 2⟩, ⟨7, 60, 1⟩], "d", .pending, none, 1⟩
      0 9 ⟨4, true, "Bardana"⟩ 7
      (by decide) (by decide) (by decide) (by decide) (by decide)
      (by decide) (by decide) (by decide) (by decide)⟩

/-- C8: ledger adjustment failures propagate and abort the enclosing
operation — a throwing `Party.updateBalance` makes purchase creation answer
500 with no stock touched, and a `NotFound` from the ledger makes the
payment status toggle answer 500 — while per-line-item inventory failures
are caught and logged: creation still succeeds and every non-failing line
item receives its full stock adjustment regardless of which sibling items
throw. -/
theorem c8_ledger_propagates_inventory_absorbed :
    (∀ (f : Nat → Bool) (st : St) (req : PurchaseReq),
      req.supplierName ≠ "" → req.phoneNumber ≠ "" → req.date ≠ "" →
      req.items ≠ [] →
      createPurchase f true st req =
        .error { balances := findOrCreate st.balances req.pid,
                 invItems := st.invItems }) ∧
    (∀ (f : Nat → Bool) (st : St) (req : PurchaseReq) (b : Rat) (k : Nat),
      lookupBal st.balances req.pid = some b →
      req.supplierName ≠ "" → req.phoneNumber ≠ "" → req.date ≠ "" →
      req.items ≠ [] →
      f k = false → findBardanaKey st.invItems ≠ some k →
      ∃ st1 pur1, createPurchase f false st req = .ok (st1, pur1) ∧
        lookupItem st1.invItems k =
          (lookupItem st.invItems k).map (fun it =>
            { it with openingStock :=
                it.openingStock + itemsDelta req.items k })) ∧
    (∀ (bal : Balances) (pay : PaymentDoc) (pid : Nat) (s : Status),
      pay.partyId = some pid →
      ((pay.status = .completed ∧ s = .cancelled) ∨
        (pay.status = .cancelled ∧ s = .completed)) →
      lookupBal bal pid = none →
      paymentStatusUpdate bal pay s = .error ()) := by
  refine ⟨?_, ?_, ?_⟩
  · intro f st req hsn hpn hdt hne
    have hval : ¬(req.supplierName = "" ∨ req.phoneNumber = "" ∨
        req.date = "") := by
      rintro (h | h | h)
      · exact hsn h
      · exact hpn h
      · exact hdt h
    simp [createPurchase, if_neg hval, if_neg hne]
  · intro f st req b k hb hsn hpn hdt hne hfk hnb
    obtain ⟨st1, pur1, hcr, hpid1, hitems1, htot1, hbal1, hinv1⟩ :=
      createPurchase_ok f st req b hb hsn hpn hdt hne
    refine ⟨st1, pur1, hcr, ?_⟩
    rw [hinv1]
    have sh1 : shape (purchaseCreateStocks f st.invItems req.items) =
        shape st.invItems := shape_createStocks f req.items st.invItems
    cases hbA : findBardana (purchaseCreateStocks f st.invItems req.items) with
    | none =>
      rw [purchaseCreateBardana_none req.items hbA]
      exact lookupItem_createStocks f req.items st.invItems k hfk
    | some p =>
      obtain ⟨bk2, itb2⟩ := p
      have hkey : findBardanaKey st.invItems = some bk2 := by
        have := findBardana_key_of_shape sh1
        rw [hbA] at this
        unfold findBardanaKey
        rw [← this]
        rfl
      have hbk2 : bk2 ≠ k := by
        intro he
        exact hnb (he ▸ hkey)
      rw [purchaseCreateBardana_some req.items hbA, lookupItem_setStock,
        if_neg (fun he : k = bk2 => hbk2 he.symm)]
      exact lookupItem_createStocks f req.items st.invItems k hfk
  · intro bal pay pid s hpid htog hb
    exact paymentStatusUpdate_notFound bal pay pid s htog hpid hb

theorem c8_ledger_propagates_inventory_absorbed_witness :
    (createPurchase (fun n => n = 5) true
        ⟨[(1, (0:Rat))], [(4, ⟨1, false, "Wheat"⟩), (5, ⟨2, false, "Rice"⟩),
          (9, ⟨0, true, "Bardana"⟩)]⟩
        ⟨"S", "p", [⟨4, 30, 2⟩, ⟨5, 60, 1⟩], "d", .pending, none, 1⟩ =
      .error { balances := findOrCreate [(1, (0:Rat))] 1,
               invItems := [(4, ⟨1, false, "Wheat"⟩), (5, ⟨2, false, "Rice"⟩),
                 (9, ⟨0, true, "Bardana"⟩)] }) ∧
    (∃ st1 pur1,
      createPurchase (fun n => n = 5) false
        ⟨[(1, (0:Rat))], [(4, ⟨1, false, "Wheat"⟩), (5, ⟨2, false, "Rice"⟩),
          (9, ⟨0, true, "Bardana"⟩)]⟩
        ⟨"S", "p", [⟨4, 30, 2⟩, ⟨5, 60, 1⟩], "d", .pending, none, 1⟩ =
        .ok (st1, pur1) ∧
      lookupItem st1.invItems 4 =
        (lookupItem [(4, ⟨1, false, "Wheat"⟩), (5, ⟨2, false, "Rice"⟩),
          (9, ⟨0, true, "Bardana"⟩)] 4).map (fun it =>
            { it with openingStock :=
                it.openingStock +
                  itemsDelta [⟨4, 30, 2⟩, ⟨5, 60, 1⟩] 4 })) ∧
    (paymentStatusUpdate [] c4Pay .cancelled = .error ()) :=
  ⟨c8_ledger_propagates_inventory_absorbed.1 (fun n => n = 5)
      ⟨[(1, 0)], [(4, ⟨1, false, "Wheat"⟩), (5, ⟨2, false, "Rice"⟩),
        (9, ⟨0, true, "Bardana"⟩)]⟩
      ⟨"S", "p", [⟨4, 30, 2⟩, ⟨5, 60, 1⟩], "d", .pending, none, 1⟩
      (by decide) (by decide) (by decide) (by decide),
   c8_ledger_propagates_inventory_absorbed.2.1 (fun n => n = 5)
      ⟨[(1, 0)], [(4, ⟨1, false, "Wheat"⟩), (5, ⟨2, false, "Rice"⟩),
        (9, ⟨0, true, "Bardana"⟩)]⟩
      ⟨"S", "p", [⟨4, 30, 2⟩, ⟨5, 60, 1⟩], "d", .pending, none, 1⟩
      0 4 (by decide) (by decide) (by decide) (by decide) (by decide)
      (by decide) (by decide),
   c8_ledger_propagates_inventory_absorbed.2.2 [] c4Pay 1 .cancelled
      (by decide) (by decide) (by decide)⟩
